import Mathlib

/-!
# Verification of the zestify memory layer

Shallow embedding of the persistent-memory core of the zestify coaching
backend (`backend/memory/manager.py` and `backend/memory/schemas.py`):
the JSON data model, the RFC 7386 merge patch, the RFC 6902 patch engine
with its selective component persistence, the component-store load/save
round trip, the temporal bucketing of the view generator, and the
full-to-compact projections.

Python dictionaries are embedded as insertion-ordered association lists
with the dict operations (`lookupJ`, `setJ`, `eraseJ`); JSON values as an
inductive type; timestamps and dates as integers / civil-date triples.
-/

namespace Zestify

/-- JSON values, as produced by `json.load`: `null`, booleans, numbers,
strings, arrays and objects.  Objects are insertion-ordered key/value
lists (Python dicts); numbers are embedded as integers, which suffices
for every claim treated here. -/
inductive Json where
  | null : Json
  | bool (b : Bool) : Json
  | num (n : Int) : Json
  | str (s : String) : Json
  | arr (elems : List Json) : Json
  | obj (fields : List (String × Json)) : Json

abbrev JFields := List (String × Json)

/-- Python `d.get(k)` / `k in d`: the (unique, in an actual dict) binding. -/
def lookupJ : JFields → String → Option Json
  | [], _ => none
  | (k, v) :: rest, key => if k = key then some v else lookupJ rest key

/-- Python `d.pop(k, None)`: remove the binding for `k` if present. -/
def eraseJ : JFields → String → JFields
  | [], _ => []
  | (k₀, v₀) :: rest, key =>
      if k₀ = key then eraseJ rest key else (k₀, v₀) :: eraseJ rest key

/-- Python `d[k] = v`: replace the binding in place, or append it. -/
def setJ : JFields → String → Json → JFields
  | [], key, v => [(key, v)]
  | (k, w) :: rest, key, v =>
      if k = key then (k, v) :: rest else (k, w) :: setJ rest key v

theorem lookupJ_eraseJ (t : JFields) (k k' : String) :
    lookupJ (eraseJ t k) k' = if k' = k then none else lookupJ t k' := by
  induction t with
  | nil => simp [eraseJ, lookupJ]
  | cons hd tl ih =>
      obtain ⟨k₀, v₀⟩ := hd
      by_cases h0 : k₀ = k <;> by_cases h1 : k' = k <;> by_cases h2 : k₀ = k' <;>
        simp_all [eraseJ, lookupJ]

theorem lookupJ_setJ (t : JFields) (k : String) (v : Json) (k' : String) :
    lookupJ (setJ t k v) k' = if k' = k then some v else lookupJ t k' := by
  induction t with
  | nil =>
      by_cases h1 : k' = k <;> simp_all [setJ, lookupJ]
      intro h; exact absurd h.symm h1
  | cons hd tl ih =>
      obtain ⟨k₀, v₀⟩ := hd
      by_cases h0 : k₀ = k <;> by_cases h1 : k' = k <;> by_cases h2 : k₀ = k' <;>
        simp_all [setJ, lookupJ]

/-- `MemoryManager._merge_patch` (`backend/memory/manager.py`): RFC 7386
merge patch.  Iterates over the patch dict's items in order: a `null`
value pops the key from the target; a dict value whose target value is
also a dict recurses; any other value (or a dict value over a non-dict
target value) is assigned wholesale.  The non-dict value cases and the
non-dict target cases are spelled out constructor by constructor. -/
def mergePatch (target : JFields) : JFields → JFields
  | [] => target
  | (k, .null) :: rest => mergePatch (eraseJ target k) rest
  | (k, .bool b) :: rest => mergePatch (setJ target k (.bool b)) rest
  | (k, .num n) :: rest => mergePatch (setJ target k (.num n)) rest
  | (k, .str s) :: rest => mergePatch (setJ target k (.str s)) rest
  | (k, .arr es) :: rest => mergePatch (setJ target k (.arr es)) rest
  | (k, .obj pf) :: rest =>
      match lookupJ target k with
      | some (.obj tf) => mergePatch (setJ target k (.obj (mergePatch tf pf))) rest
      | some .null => mergePatch (setJ target k (.obj pf)) rest
      | some (.bool _) => mergePatch (setJ target k (.obj pf)) rest
      | some (.num _) => mergePatch (setJ target k (.obj pf)) rest
      | some (.str _) => mergePatch (setJ target k (.obj pf)) rest
      | some (.arr _) => mergePatch (setJ target k (.obj pf)) rest
      | none => mergePatch (setJ target k (.obj pf)) rest
  termination_by p => sizeOf p
  decreasing_by all_goals (simp_wf; try omega)

/-- Keys never mentioned by the patch are untouched. -/
theorem mergePatch_not_mem (t : JFields) (p : JFields) (k : String)
    (hk : ∀ q ∈ p, q.1 ≠ k) : lookupJ (mergePatch t p) k = lookupJ t k := by
  induction p generalizing t with
  | nil => simp [mergePatch]
  | cons hd tl ih =>
      obtain ⟨k₀, v₀⟩ := hd
      have hk₀ : k₀ ≠ k := hk (k₀, v₀) (List.mem_cons_self _ _)
      have htl : ∀ q ∈ tl, q.1 ≠ k := fun q hq => hk q (List.mem_cons_of_mem _ hq)
      have hkne : ¬ (k = k₀) := fun h => hk₀ h.symm
      cases v₀ with
      | null =>
          rw [mergePatch, ih _ htl, lookupJ_eraseJ]; simp [hkne]
      | obj pf =>
          rw [mergePatch]
          cases hlv : lookupJ t k₀ with
          | none => rw [ih _ htl, lookupJ_setJ]; simp [hkne]
          | some w =>
              cases w <;> (rw [ih _ htl, lookupJ_setJ]; simp [hkne])
      | bool b => rw [mergePatch, ih _ htl, lookupJ_setJ]; simp [hkne]
      | num n => rw [mergePatch, ih _ htl, lookupJ_setJ]; simp [hkne]
      | str s => rw [mergePatch, ih _ htl, lookupJ_setJ]; simp [hkne]
      | arr es => rw [mergePatch, ih _ htl, lookupJ_setJ]; simp [hkne]

/-- Full per-key characterisation of `mergePatch` for patches with
distinct keys (Python dicts always have distinct keys). -/
theorem mergePatch_lookup (t p : JFields) (k : String)
    (hp : (p.map Prod.fst).Nodup) :
    lookupJ (mergePatch t p) k =
      match lookupJ p k with
      | none => lookupJ t k
      | some .null => none
      | some (.obj pf) =>
          (match lookupJ t k with
           | some (.obj tf) => some (.obj (mergePatch tf pf))
           | _ => some (.obj pf))
      | some v => some v := by
  induction p generalizing t with
  | nil => simp [mergePatch, lookupJ]
  | cons hd tl ih =>
      obtain ⟨k₀, v₀⟩ := hd
      simp only [List.map_cons, List.nodup_cons] at hp
      obtain ⟨hk₀, htl⟩ := hp
      by_cases hk : k = k₀
      · subst hk
        have hnot : ∀ q ∈ tl, q.1 ≠ k := by
          intro q hq h
          exact hk₀ (h ▸ List.mem_map_of_mem Prod.fst hq)
        cases v₀ with
        | null =>
            rw [mergePatch, mergePatch_not_mem _ _ _ hnot, lookupJ_eraseJ]
            simp [lookupJ]
        | obj pf =>
            rw [mergePatch]
            cases hlv : lookupJ t k with
            | none =>
                rw [mergePatch_not_mem _ _ _ hnot, lookupJ_setJ]
                simp [lookupJ, hlv]
            | some w =>
                cases w <;>
                  (rw [mergePatch_not_mem _ _ _ hnot, lookupJ_setJ]; simp [lookupJ, hlv])
        | bool b =>
            rw [mergePatch, mergePatch_not_mem _ _ _ hnot, lookupJ_setJ]; simp [lookupJ]
        | num n =>
            rw [mergePatch, mergePatch_not_mem _ _ _ hnot, lookupJ_setJ]; simp [lookupJ]
        | str s =>
            rw [mergePatch, mergePatch_not_mem _ _ _ hnot, lookupJ_setJ]; simp [lookupJ]
        | arr es =>
            rw [mergePatch, mergePatch_not_mem _ _ _ hnot, lookupJ_setJ]; simp [lookupJ]
      · have hlk : lookupJ ((k₀, v₀) :: tl) k = lookupJ tl k := by
          simp only [lookupJ]
          rw [if_neg (fun h => hk h.symm)]
        cases v₀ with
        | null =>
            rw [mergePatch, hlk, ih _ htl, lookupJ_eraseJ, if_neg hk]
        | obj pf =>
            rw [mergePatch]
            cases hlv : lookupJ t k₀ with
            | none => rw [hlk, ih _ htl, lookupJ_setJ, if_neg hk]
            | some w =>
                cases w <;> (rw [hlk, ih _ htl, lookupJ_setJ, if_neg hk])
        | bool b => rw [mergePatch, hlk, ih _ htl, lookupJ_setJ, if_neg hk]
        | num n => rw [mergePatch, hlk, ih _ htl, lookupJ_setJ, if_neg hk]
        | str s => rw [mergePatch, hlk, ih _ htl, lookupJ_setJ, if_neg hk]
        | arr es => rw [mergePatch, hlk, ih _ htl, lookupJ_setJ, if_neg hk]

/-- Whether a JSON value is an object. -/
def Json.isObj : Json → Bool
  | .obj _ => true
  | _ => false

/-- C1: `applyMergePatch(A,P)` removes exactly the keys of `A` whose value
in `P` is `null`, recursively deep-merges keys whose value is an object in
both `A` and `P`, replaces wholesale keys whose value in `P` is a
non-object (or whose value in `A` is not an object), and leaves every key
of `A` not mentioned in `P` unchanged. -/
theorem mergePatch_rfc7386 (t p : JFields) (k : String)
    (hp : (p.map Prod.fst).Nodup) :
    (lookupJ p k = some .null → lookupJ (mergePatch t p) k = none) ∧
    (lookupJ p k = none → lookupJ (mergePatch t p) k = lookupJ t k) ∧
    (∀ pf tf, lookupJ p k = some (.obj pf) → lookupJ t k = some (.obj tf) →
        lookupJ (mergePatch t p) k = some (.obj (mergePatch tf pf))) ∧
    (∀ v, lookupJ p k = some v → v ≠ .null →
        (v.isObj = false ∨ ∀ tf, lookupJ t k ≠ some (.obj tf)) →
        lookupJ (mergePatch t p) k = some v) ∧
    (lookupJ t k ≠ none → lookupJ (mergePatch t p) k = none →
        lookupJ p k = some .null) := by
  have hchar := mergePatch_lookup t p k hp
  refine ⟨?_, ?_, ?_, ?_, ?_⟩
  · intro h; rw [hchar, h]
  · intro h; rw [hchar, h]
  · intro pf tf hpk htk; rw [hchar, hpk, htk]
  · intro v hpk hnull hrep
    rw [hchar, hpk]
    cases v with
    | null => exact absurd rfl hnull
    | obj pf =>
        rcases hrep with hobj | hnotobj
        · simp [Json.isObj] at hobj
        · cases hlv : lookupJ t k with
          | none => simp
          | some w => cases w <;> simp_all
    | bool b => rfl
    | num n => rfl
    | str s => rfl
    | arr es => rfl
  · intro ht hres
    rw [hchar] at hres
    cases hpk : lookupJ p k with
    | none => rw [hpk] at hres; exact absurd hres ht
    | some v =>
        rw [hpk] at hres
        cases v with
        | null => rfl
        | obj pf =>
            cases hlv : lookupJ t k with
            | none => rw [hlv] at hres; simp at hres
            | some w => rw [hlv] at hres; cases w <;> simp at hres
        | bool b => simp at hres
        | num n => simp at hres
        | str s => simp at hres
        | arr es => simp at hres

/-- Witness for `mergePatch_rfc7386` at a concrete target and patch:
target `\x7ba: 1, b: \x7bx: 2, y: 3\x7d, c: 4, d: 5\x7d`, patch
`\x7ba: null, b: \x7bx: 9\x7d, c: "new"\x7d`. -/
theorem mergePatch_rfc7386_witness :
    (lookupJ [("a", .null), ("b", .obj [("x", .num 9)]), ("c", .str "new")] "a"
        = some .null) ∧
    lookupJ (mergePatch
        [("a", .num 1), ("b", .obj [("x", .num 2), ("y", .num 3)]),
         ("c", .num 4), ("d", .num 5)]
        [("a", .null), ("b", .obj [("x", .num 9)]), ("c", .str "new")]) "a" = none := by
  refine ⟨rfl, ?_⟩
  exact (mergePatch_rfc7386
    [("a", .num 1), ("b", .obj [("x", .num 2), ("y", .num 3)]),
     ("c", .num 4), ("d", .num 5)]
    [("a", .null), ("b", .obj [("x", .num 9)]), ("c", .str "new")]
    "a" (by decide)).1 rfl

/-! ## Medical history compaction (`MedicalHistory.to_compact`, schemas.py) -/

/-- `MedicalCondition` (schemas.py): the fields inspected by compaction
and the view (`name`, `status`, `condition_type`) plus a payload field. -/
structure MedicalCondition where
  name : String := ""
  condition_type : String := "condition"
  status : String := "template"
  notes : Option String := none
  deriving Repr, DecidableEq

/-- `CompactMedicalHistory` (schemas.py). -/
structure CompactMedicalHistory where
  conditions : List MedicalCondition := []
  deriving Repr, DecidableEq

/-- `MedicalHistory` (schemas.py): adds bookkeeping fields over the
compact shape. -/
structure MedicalHistory where
  user_id : Option String := none
  conditions : List MedicalCondition := []
  deriving Repr, DecidableEq

/-- `MedicalHistory.to_compact` (schemas.py lines 778-782): keep the
conditions that are not templates and have a truthy (non-empty) name;
if none survive, return an empty condition list. -/
def MedicalHistory.to_compact (m : MedicalHistory) : CompactMedicalHistory :=
  let valid_conditions :=
    m.conditions.filter (fun c => c.status != "template" && c.name != "")
  if valid_conditions.isEmpty then ⟨[]⟩ else ⟨valid_conditions⟩

/-- C5 counterexample: for a history holding a single template
placeholder, the compact projection's condition list is empty — it does
NOT contain "a single empty placeholder entry" as the claim states. -/
theorem to_compact_template_empty_cex :
    (MedicalHistory.to_compact
        ⟨some "u1", [⟨"", "condition", "template", none⟩]⟩).conditions = [] ∧
    ∀ c : MedicalCondition,
      (MedicalHistory.to_compact
        ⟨some "u1", [⟨"", "condition", "template", none⟩]⟩).conditions ≠ [c] := by
  constructor
  · rfl
  · intro c h
    simp [MedicalHistory.to_compact, List.filter] at h

/-- C5 amended: the compact projection contains no template or blank-name
entry, and when filtering removes every condition the compact projection
is the empty collection (no placeholder entry is inserted). -/
theorem to_compact_filters_templates (m : MedicalHistory) :
    (∀ c ∈ (MedicalHistory.to_compact m).conditions,
        c.status ≠ "template" ∧ c.name ≠ "") ∧
    ((∀ c ∈ m.conditions, c.status = "template" ∨ c.name = "") →
        (MedicalHistory.to_compact m).conditions = []) := by
  constructor
  · intro c hc
    unfold MedicalHistory.to_compact at hc
    set v := m.conditions.filter (fun c => c.status != "template" && c.name != "") with hv
    by_cases he : v.isEmpty
    · simp [he] at hc
    · simp [he] at hc
      have := List.of_mem_filter hc
      simp only [Bool.and_eq_true, bne_iff_ne, ne_eq] at this
      exact this
  · intro hall
    unfold MedicalHistory.to_compact
    have hnil : m.conditions.filter (fun c => c.status != "template" && c.name != "") = [] := by
      rw [List.filter_eq_nil_iff]
      intro c hc
      rcases hall c hc with h | h <;> simp [h]
    simp [hnil]

/-- Witness for `to_compact_filters_templates`: a history with one active
named condition and one template; the template is filtered out. -/
theorem to_compact_filters_templates_witness :
    ∀ c ∈ (MedicalHistory.to_compact
        ⟨some "u1", [⟨"asthma", "condition", "active", none⟩,
                     ⟨"", "condition", "template", none⟩]⟩).conditions,
      c.status ≠ "template" ∧ c.name ≠ "" :=
  (to_compact_filters_templates
    ⟨some "u1", [⟨"asthma", "condition", "active", none⟩,
                 ⟨"", "condition", "template", none⟩]⟩).1

/-! ## Chat history compaction (`ChatHistory.to_compact`, schemas.py) -/

/-- `CompactChatHistory` (schemas.py): conversation dicts plus the last
interaction timestamp (ISO string). -/
structure CompactChatHistory where
  conversations : List Json := []
  last_interaction : Option Int := none

/-- `ChatHistory` (schemas.py): adds the user id. -/
structure ChatHistory where
  user_id : Option String := none
  conversations : List Json := []
  last_interaction : Option Int := none

/-- Python `l[-10:]` specialised to the compaction: the last `n`
elements (the whole list when it is shorter). -/
def lastSlice (n : Nat) (l : List α) : List α := l.drop (l.length - n)

/-- `ChatHistory.to_compact` (schemas.py lines 977-981): keep only the
most recent 10 conversation turns. -/
def ChatHistory.to_compact (h : ChatHistory) : CompactChatHistory :=
  { conversations := lastSlice 10 h.conversations,
    last_interaction := h.last_interaction }

/-- C9: the only reducing compaction step (chat-history truncation to the
last 10 turns) is idempotent on its own output, and on a history of at
most 10 turns `to_compact` returns its input's fields unchanged — so
compaction composed with the compact type's identity reduction is a
fixed point on compact values. -/
theorem to_compact_idempotent (l : List Json) (h : ChatHistory) :
    lastSlice 10 (lastSlice 10 l) = lastSlice 10 l ∧
    (h.conversations.length ≤ 10 →
      ChatHistory.to_compact h = ⟨h.conversations, h.last_interaction⟩) := by
  constructor
  · have hlen : (lastSlice 10 l).length ≤ 10 := by
      simp only [lastSlice, List.length_drop]; omega
    show (lastSlice 10 l).drop ((lastSlice 10 l).length - 10) = lastSlice 10 l
    rw [Nat.sub_eq_zero_of_le hlen, List.drop_zero]
  · intro hle
    simp [ChatHistory.to_compact, lastSlice, Nat.sub_eq_zero_of_le hle]

/-- Witness for `to_compact_idempotent`: a two-turn history is returned
unchanged. -/
theorem to_compact_idempotent_witness :
    ChatHistory.to_compact ⟨some "u1", [Json.str "hi", Json.str "hello"], none⟩ =
      ⟨[Json.str "hi", Json.str "hello"], none⟩ :=
  (to_compact_idempotent []
    ⟨some "u1", [Json.str "hi", Json.str "hello"], none⟩).2 (by simp)

/-! ## Temporal bucketing (`WorkoutMemory.get_llm_view`, schemas.py) -/

/-- Civil date (year, month 1..12, day 1..31). -/
structure Date where
  year : Nat
  month : Nat
  day : Nat
  deriving Repr, DecidableEq

/-- Day count of a civil date (days-from-civil algorithm, specialised to
years ≥ 1, without an epoch offset — only differences of the count are
ever used, mirroring Python `date` subtraction). -/
def Date.rd (d : Date) : Nat :=
  let y := if d.month ≤ 2 then d.year - 1 else d.year
  let era := y / 400
  let yoe := y % 400
  let mp := (d.month + 9) % 12
  let doy := (153 * mp + 2) / 5 + (d.day - 1)
  let doe := yoe * 365 + yoe / 4 - yoe / 100 + doy
  era * 146097 + doe

/-- `get_time_ago(target, now).days` (schemas.py lines 9-14): the day
difference `now.date() - target_date` of the two civil dates. -/
def daysAgo (now target : Date) : Int := (now.rd : Int) - target.rd

/-- The quarter of a month: `(month - 1) // 3 + 1` (schemas.py line 206). -/
def quarterOf (month : Nat) : Nat := (month - 1) / 3 + 1

/-- Which section of the temporal view an entry lands in. -/
inductive Bucket where
  | recent : Bucket
  | quarter (year : Nat) (q : Nat) : Bucket
  | secondYear : Bucket
  | dropped : Bucket
  deriving Repr, DecidableEq

/-- Period classification of one dated entry (`WorkoutMemory.get_llm_view`,
schemas.py lines 197-212): age ≤ 30 days → the individually-listed
last-30-days section; ≤ 365 → the quarterly bucket keyed by the entry's
own year and quarter; ≤ 2*365 → the single second-year summary; older →
omitted from the view. -/
def bucketOf (now entryDate : Date) : Bucket :=
  let days_ago := daysAgo now entryDate
  if days_ago ≤ 30 then .recent
  else if days_ago ≤ 365 then .quarter entryDate.year (quarterOf entryDate.month)
  else if days_ago ≤ 2 * 365 then .secondYear
  else .dropped

/-- The three period collections built by the view loop: the
individually-listed recent entries, the quarter-keyed recent-year
entries, and the second-year entries.  Entries older than two years are
appended nowhere. -/
def viewBuckets (now : Date) (dates : List Date) :
    List Date × List ((Nat × Nat) × Date) × List Date :=
  match dates with
  | [] => ([], [], [])
  | d :: rest =>
      let rqs := viewBuckets now rest
      match bucketOf now d with
      | .recent => (d :: rqs.1, rqs.2.1, rqs.2.2)
      | .quarter y n => (rqs.1, ((y, n), d) :: rqs.2.1, rqs.2.2)
      | .secondYear => (rqs.1, rqs.2.1, d :: rqs.2.2)
      | .dropped => rqs

theorem mem_viewBuckets_recent (now : Date) (dates : List Date) (d : Date)
    (hd : d ∈ dates) (hb : bucketOf now d = .recent) :
    d ∈ (viewBuckets now dates).1 := by
  induction dates with
  | nil => cases hd
  | cons hd₀ tl ih =>
      rcases List.mem_cons.mp hd with heq | hmem
      · subst heq
        simp only [viewBuckets, hb]
        exact List.mem_cons_self _ _
      · have hmem' := ih hmem
        simp only [viewBuckets]
        cases hbk : bucketOf now hd₀ <;> simp [hmem']

theorem mem_viewBuckets_quarter (now : Date) (dates : List Date) (d : Date)
    (y n : Nat) (hd : d ∈ dates) (hb : bucketOf now d = .quarter y n) :
    ((y, n), d) ∈ (viewBuckets now dates).2.1 := by
  induction dates with
  | nil => cases hd
  | cons hd₀ tl ih =>
      rcases List.mem_cons.mp hd with heq | hmem
      · subst heq
        simp only [viewBuckets, hb]
        exact List.mem_cons_self _ _
      · have hmem' := ih hmem
        simp only [viewBuckets]
        cases hbk : bucketOf now hd₀ <;> simp [hmem']

theorem mem_viewBuckets_second (now : Date) (dates : List Date) (d : Date)
    (hd : d ∈ dates) (hb : bucketOf now d = .secondYear) :
    d ∈ (viewBuckets now dates).2.2 := by
  induction dates with
  | nil => cases hd
  | cons hd₀ tl ih =>
      rcases List.mem_cons.mp hd with heq | hmem
      · subst heq
        simp only [viewBuckets, hb]
        exact List.mem_cons_self _ _
      · have hmem' := ih hmem
        simp only [viewBuckets]
        cases hbk : bucketOf now hd₀ <;> simp [hmem']

theorem viewBuckets_recent_bucket (now : Date) (dates : List Date) (d : Date)
    (hmem : d ∈ (viewBuckets now dates).1) : bucketOf now d = .recent := by
  induction dates with
  | nil => simp [viewBuckets] at hmem
  | cons hd₀ tl ih =>
      simp only [viewBuckets] at hmem
      rcases hbk : bucketOf now hd₀ <;> rw [hbk] at hmem <;> simp at hmem
      case recent =>
        rcases hmem with heq | h
        · subst heq; exact hbk
        · exact ih h
      case quarter => exact ih hmem
      case secondYear => exact ih hmem
      case dropped => exact ih hmem

theorem viewBuckets_quarter_bucket (now : Date) (dates : List Date) (d : Date)
    (y n : Nat) (hmem : ((y, n), d) ∈ (viewBuckets now dates).2.1) :
    bucketOf now d = .quarter y n := by
  induction dates with
  | nil => simp [viewBuckets] at hmem
  | cons hd₀ tl ih =>
      simp only [viewBuckets] at hmem
      rcases hbk : bucketOf now hd₀ <;> rw [hbk] at hmem <;> simp at hmem
      case recent => exact ih hmem
      case quarter =>
        rcases hmem with ⟨⟨hy, hn⟩, heq⟩ | h
        · subst heq; rw [hbk, hy, hn]
        · exact ih h
      case secondYear => exact ih hmem
      case dropped => exact ih hmem

theorem viewBuckets_second_bucket (now : Date) (dates : List Date) (d : Date)
    (hmem : d ∈ (viewBuckets now dates).2.2) : bucketOf now d = .secondYear := by
  induction dates with
  | nil => simp [viewBuckets] at hmem
  | cons hd₀ tl ih =>
      simp only [viewBuckets] at hmem
      rcases hbk : bucketOf now hd₀ <;> rw [hbk] at hmem <;> simp at hmem
      case recent => exact ih hmem
      case quarter => exact ih hmem
      case secondYear =>
        rcases hmem with heq | h
        · subst heq; exact hbk
        · exact ih h
      case dropped => exact ih hmem

/-- C4: with an injected "now", an entry 5 days old is listed in the
recent (last-30-days) section; one 100 days old lands in the recent-year
quarter keyed by its own date's year and quarter `((month-1)//3)+1`; one
400 days old lands in the single second-year summary; and one 800 days
old appears in none of the three sections of the rendered view. -/
theorem temporal_bucketing (now d : Date) (dates : List Date) (hd : d ∈ dates) :
    (daysAgo now d = 5 → d ∈ (viewBuckets now dates).1) ∧
    (daysAgo now d = 100 →
      ((d.year, quarterOf d.month), d) ∈ (viewBuckets now dates).2.1) ∧
    (daysAgo now d = 400 → d ∈ (viewBuckets now dates).2.2) ∧
    (daysAgo now d = 800 →
      d ∉ (viewBuckets now dates).1 ∧
      (∀ yq, (yq, d) ∉ (viewBuckets now dates).2.1) ∧
      d ∉ (viewBuckets now dates).2.2) := by
  refine ⟨?_, ?_, ?_, ?_⟩
  · intro h
    exact mem_viewBuckets_recent now dates d hd (by simp [bucketOf, h])
  · intro h
    exact mem_viewBuckets_quarter now dates d _ _ hd (by norm_num [bucketOf, h])
  · intro h
    exact mem_viewBuckets_second now dates d hd (by norm_num [bucketOf, h])
  · intro h
    have hdrop : bucketOf now d = .dropped := by norm_num [bucketOf, h]
    refine ⟨?_, fun yq => ?_, ?_⟩ <;> intro hmem
    · rw [viewBuckets_recent_bucket now dates d hmem] at hdrop; cases hdrop
    · rw [viewBuckets_quarter_bucket now dates d yq.1 yq.2 hmem] at hdrop; cases hdrop
    · rw [viewBuckets_second_bucket now dates d hmem] at hdrop; cases hdrop

/-- Witness for `temporal_bucketing` with now = 2024-06-15 and entries
dated 2024-06-10 (5 days), 2024-03-07 (100 days, 2024-Q1), 2023-05-12
(400 days), 2022-04-07 (800 days). -/
theorem temporal_bucketing_witness :
    (⟨2024, 6, 10⟩ : Date) ∈
      (viewBuckets ⟨2024, 6, 15⟩
        [⟨2024, 6, 10⟩, ⟨2024, 3, 7⟩, ⟨2023, 5, 12⟩, ⟨2022, 4, 7⟩]).1 ∧
    ((2024, 1), (⟨2024, 3, 7⟩ : Date)) ∈
      (viewBuckets ⟨2024, 6, 15⟩
        [⟨2024, 6, 10⟩, ⟨2024, 3, 7⟩, ⟨2023, 5, 12⟩, ⟨2022, 4, 7⟩]).2.1 ∧
    (⟨2023, 5, 12⟩ : Date) ∈
      (viewBuckets ⟨2024, 6, 15⟩
        [⟨2024, 6, 10⟩, ⟨2024, 3, 7⟩, ⟨2023, 5, 12⟩, ⟨2022, 4, 7⟩]).2.2 ∧
    (⟨2022, 4, 7⟩ : Date) ∉
      (viewBuckets ⟨2024, 6, 15⟩
        [⟨2024, 6, 10⟩, ⟨2024, 3, 7⟩, ⟨2023, 5, 12⟩, ⟨2022, 4, 7⟩]).1 := by
  refine ⟨?_, ?_, ?_, ?_⟩
  · exact (temporal_bucketing ⟨2024, 6, 15⟩ ⟨2024, 6, 10⟩
      [⟨2024, 6, 10⟩, ⟨2024, 3, 7⟩, ⟨2023, 5, 12⟩, ⟨2022, 4, 7⟩]
      (by decide)).1 (by decide)
  · have h := (temporal_bucketing ⟨2024, 6, 15⟩ ⟨2024, 3, 7⟩
      [⟨2024, 6, 10⟩, ⟨2024, 3, 7⟩, ⟨2023, 5, 12⟩, ⟨2022, 4, 7⟩]
      (by decide)).2.1 (by decide)
    simpa [quarterOf] using h
  · exact (temporal_bucketing ⟨2024, 6, 15⟩ ⟨2023, 5, 12⟩
      [⟨2024, 6, 10⟩, ⟨2024, 3, 7⟩, ⟨2023, 5, 12⟩, ⟨2022, 4, 7⟩]
      (by decide)).2.2.1 (by decide)
  · exact ((temporal_bucketing ⟨2024, 6, 15⟩ ⟨2022, 4, 7⟩
      [⟨2024, 6, 10⟩, ⟨2024, 3, 7⟩, ⟨2023, 5, 12⟩, ⟨2022, 4, 7⟩]
      (by decide)).2.2.2 (by decide)).1


/-! ## The component store: `OverallMemory.from_user_dir` and `save_memory`

The aggregate model keeps `user_info` and `user_profile` (demographics,
goals and preferences sub-objects are omitted passive data),
`workout_memory` with its normalisation/migration of `workout_type` /
`original_type` / `duration_seconds`, `chat_history`, and the
`activities` / `biometrics` / `workout_plan` components as raw objects.
Datetimes are embedded as integer timestamps (ISO strings in the real
files; the embedding only needs their identity and order). -/

/-- Python `d.get(k) is None`: key absent or bound to `null`. -/
def isNoneVal : Option Json → Bool
  | none => true
  | some .null => true
  | _ => false

/-- Python `k in d`. -/
def hasKey (f : JFields) (k : String) : Bool :=
  (lookupJ f k).isSome

/-- pydantic `Optional[str]` field: absent/`null` → `None`, string kept,
anything else a validation error. -/
def getOptStr (f : JFields) (k : String) : Option (Option String) :=
  match lookupJ f k with
  | none => some none
  | some .null => some none
  | some (.str s) => some (some s)
  | some _ => none

/-- pydantic `Optional[datetime]`-like field (timestamps as numbers). -/
def getOptNum (f : JFields) (k : String) : Option (Option Int) :=
  match lookupJ f k with
  | none => some none
  | some .null => some none
  | some (.num n) => some (some n)
  | some _ => none

/-- pydantic required `str` field. -/
def getReqStr (f : JFields) (k : String) : Option String :=
  match lookupJ f k with
  | some (.str s) => some s
  | _ => none

/-- pydantic required `datetime`-like field. -/
def getReqNum (f : JFields) (k : String) : Option Int :=
  match lookupJ f k with
  | some (.num n) => some n
  | _ => none

def optStrJ : Option String → Json
  | none => .null
  | some s => .str s

def optNumJ : Option Int → Json
  | none => .null
  | some n => .num n

/-- `RecentWorkout` (schemas.py): the fields driving its validator. -/
structure Workout where
  workout_type : Option String
  original_type : Option String
  start_date : Option Int
  end_date : Option Int
  duration_seconds : Option Int
  deriving Repr, DecidableEq

/-- first branch of `RecentWorkout.process_incoming_workout_data`
(schemas.py lines 92-118): back-fill a missing/`None` `original_type`
from a non-`None` `workout_type`. -/
def typeStep1 (f : JFields) : JFields :=
  if isNoneVal (lookupJ f "original_type") && !isNoneVal (lookupJ f "workout_type") then
    match lookupJ f "workout_type" with
    | some v => setJ f "original_type" v
    | none => f
  else f

/-- second branch: default a `None` `workout_type` from the
`original_type` entry when that key exists, else `"Other"`. -/
def typeStep2 (f1 : JFields) : JFields :=
  if isNoneVal (lookupJ f1 "workout_type") then
    match lookupJ f1 "original_type" with
    | some v => setJ f1 "workout_type" v
    | none => setJ f1 "workout_type" (.str "Other")
  else f1

/-- duration derivation: compute `duration_seconds` from the two date
fields when absent and `end > start`. -/
def durationStep (f2 : JFields) : JFields :=
  if isNoneVal (lookupJ f2 "duration_seconds") then
    match lookupJ f2 "start_date", lookupJ f2 "end_date" with
    | some (.num s), some (.num e) =>
        if s < e then setJ f2 "duration_seconds" (.num (e - s)) else f2
    | _, _ => f2
  else f2

/-- `RecentWorkout.process_incoming_workout_data` (schemas.py lines
92-118), acting on the raw dict before field validation. -/
def normalizeWorkout (f : JFields) : JFields :=
  durationStep (typeStep2 (typeStep1 f))

/-- pydantic validation of one `RecentWorkout` dict. -/
def validateWorkout (j : Json) : Option Workout :=
  match j with
  | .obj fields =>
      let f := normalizeWorkout fields
      match getOptStr f "workout_type", getOptStr f "original_type",
            getOptNum f "start_date", getOptNum f "end_date",
            getOptNum f "duration_seconds" with
      | some wt, some ot, some sd, some ed, some ds => some ⟨wt, ot, sd, ed, ds⟩
      | _, _, _, _, _ => none
  | _ => none

/-- `model_dump` of one workout: every field appears, `None` as `null`. -/
def Workout.dump (w : Workout) : Json :=
  .obj [("workout_type", optStrJ w.workout_type),
        ("original_type", optStrJ w.original_type),
        ("start_date", optNumJ w.start_date),
        ("end_date", optNumJ w.end_date),
        ("duration_seconds", optNumJ w.duration_seconds)]

/-- `WorkoutMemory` (schemas.py): required `user_id` and `last_updated`
plus the workout list (workout goals are omitted passive data). -/
structure WorkoutMemory where
  user_id : String
  last_updated : Int
  recent_workouts : List Workout
  deriving Repr, DecidableEq

def validateWorkoutListJ : List Json → Option (List Workout)
  | [] => some []
  | j :: rest =>
      (validateWorkout j).bind fun w =>
      (validateWorkoutListJ rest).map fun ws => w :: ws

/-- the `recent_workouts` field: absent defaults to `[]`; a list is
validated element-wise; anything else fails. -/
def validateRecentList : Option Json → Option (List Workout)
  | none => some []
  | some (.arr l) => validateWorkoutListJ l
  | some .null => none
  | some (.bool _) => none
  | some (.num _) => none
  | some (.str _) => none
  | some (.obj _) => none

def validateWorkoutMemory (f : JFields) : Option WorkoutMemory :=
  (getReqStr f "user_id").bind fun u =>
  (getReqNum f "last_updated").bind fun lu =>
  (validateRecentList (lookupJ f "recent_workouts")).map fun ws => ⟨u, lu, ws⟩

def WorkoutMemory.dump (wm : WorkoutMemory) : Json :=
  .obj [("recent_workouts", .arr (wm.recent_workouts.map Workout.dump)),
        ("user_id", .str wm.user_id),
        ("last_updated", .num wm.last_updated)]

/-- `UserInfo` (schemas.py). -/
structure UserInfo where
  user_id : String
  created_at : Int
  updated_at : Int
  deriving Repr, DecidableEq

def validateUserInfo (f : JFields) : Option UserInfo :=
  (getReqStr f "user_id").bind fun u =>
  (getReqNum f "created_at").bind fun c =>
  (getReqNum f "updated_at").map fun upd => ⟨u, c, upd⟩

def UserInfo.dump (u : UserInfo) : Json :=
  .obj [("user_id", .str u.user_id), ("created_at", .num u.created_at),
        ("updated_at", .num u.updated_at)]

/-- `UserProfile` (schemas.py): identity and bookkeeping fields (the
demographics / goals / medical-history / preferences sub-objects are
omitted passive data). -/
structure UserProfile where
  user_id : String
  name : Option String
  email : Option String
  created_at : Int
  updated_at : Int
  deriving Repr, DecidableEq

def validateUserProfile (f : JFields) : Option UserProfile :=
  (getReqStr f "user_id").bind fun u =>
  (getOptStr f "name").bind fun n =>
  (getOptStr f "email").bind fun e =>
  (getReqNum f "created_at").bind fun c =>
  (getReqNum f "updated_at").map fun upd => ⟨u, n, e, c, upd⟩

def UserProfile.dump (p : UserProfile) : Json :=
  .obj [("name", optStrJ p.name), ("user_id", .str p.user_id),
        ("email", optStrJ p.email), ("created_at", .num p.created_at),
        ("updated_at", .num p.updated_at)]

/-- every conversation entry must be a dict (`List[Dict[str, Any]]`). -/
def allObjs : List Json → Bool
  | [] => true
  | .obj _ :: rest => allObjs rest
  | _ => false

def validateChatHistory (f : JFields) : Option ChatHistory :=
  (getOptStr f "user_id").bind fun u =>
  (getOptNum f "last_interaction").bind fun li =>
  match lookupJ f "conversations" with
  | none => some ⟨u, [], li⟩
  | some (.arr l) => if allObjs l then some ⟨u, l, li⟩ else none
  | some _ => none

def ChatHistory.dump (c : ChatHistory) : Json :=
  .obj [("conversations", .arr c.conversations),
        ("last_interaction", optNumJ c.last_interaction),
        ("user_id", optStrJ c.user_id)]

/-- a raw passthrough component (`activities`, `biometrics`,
`workout_plan`): any dict validates; `null` or a non-dict fails; an
absent component takes its default.  (Their inner pydantic fields are
passive for load/save and are not modelled.) -/
def validateRaw (j : Option Json) : Option JFields :=
  match j with
  | none => some []
  | some (.obj f) => some f
  | some _ => none

/-- `OverallMemory` (schemas.py). -/
structure Mem where
  user_info : Option UserInfo
  user_profile : Option UserProfile
  workout_memory : WorkoutMemory
  activities : JFields
  biometrics : JFields
  workout_plan : JFields
  chat_history : ChatHistory

/-- keys subjected to the bare-list wrapping pass of
`ensure_user_profile_and_defaults` (schemas.py lines 1091-1096). -/
def listWrapKeys : List String :=
  ["activities", "biometrics", "workout_memory", "chat_history", "workout_plan"]

def wrapIfList (values : JFields) (key : String) : JFields :=
  match lookupJ values key with
  | some (.arr l) => setJ values key (.obj [(key, .arr l)])
  | _ => values

/-- truthy `user_id` of a component dict: the dict itself must be truthy
(non-empty) and `d.get('user_id')` truthy (a non-empty string; non-string
truthy ids are not modelled). -/
def truthyUserId : Option Json → Option String
  | some (.obj f) =>
      if f.isEmpty then none
      else match lookupJ f "user_id" with
           | some (.str s) => if s = "" then none else some s
           | _ => none
  | _ => none

/-- resolution of the user id: the profile's truthy `user_id`, else the
user-info's, else a truthy passed id. -/
def resolveUserId (v : JFields) : Option String :=
  match truthyUserId (lookupJ v "user_profile") with
  | some s => some s
  | none =>
      match truthyUserId (lookupJ v "user_info") with
      | some s => some s
      | none =>
          match lookupJ v "_passed_user_id" with
          | some (.str s) => if s = "" then none else some s
          | _ => none

/-- key-filling of a truthy profile dict: add the resolved id and fresh
timestamps for whichever of `user_id` / `created_at` / `updated_at` are
missing. -/
def profAdjust (now : Int) (uid : Option String) (pf : JFields) : JFields :=
  let pf1 := match uid with
    | some s => if hasKey pf "user_id" then pf else setJ pf "user_id" (.str s)
    | none => pf
  let pf2 := if hasKey pf1 "created_at" then pf1 else setJ pf1 "created_at" (.num now)
  if hasKey pf2 "updated_at" then pf2 else setJ pf2 "updated_at" (.num now)

/-- key-filling of a workout-memory dict: add the resolved id and a fresh
`last_updated` when missing. -/
def wmAdjust (now : Int) (uid : Option String) (wm : JFields) : JFields :=
  let wm1 := match uid with
    | some s => if hasKey wm "user_id" then wm else setJ wm "user_id" (.str s)
    | none => wm
  if hasKey wm1 "last_updated" then wm1 else setJ wm1 "last_updated" (.num now)

/-- the user-profile block of the root validator: fill the missing
identity/timestamp keys of a truthy profile dict, create a fresh profile
from the resolved id when the profile is `None`, and write the (possibly
unchanged) value back. -/
def ensureProfile (now : Int) (uid : Option String) (v : JFields) : JFields :=
  match lookupJ v "user_profile" with
  | some (.obj pf) =>
      if pf.isEmpty then setJ v "user_profile" (.obj pf)
      else setJ v "user_profile" (.obj (profAdjust now uid pf))
  | some .null =>
      match uid with
      | some s => setJ v "user_profile"
          (.obj [("user_id", .str s), ("created_at", .num now), ("updated_at", .num now)])
      | none => setJ v "user_profile" .null
  | none =>
      match uid with
      | some s => setJ v "user_profile"
          (.obj [("user_id", .str s), ("created_at", .num now), ("updated_at", .num now)])
      | none => setJ v "user_profile" .null
  | some other => setJ v "user_profile" other

/-- the workout-memory block of the root validator: inject a fresh
component when absent (and an id is known), else fill a dict component's
missing `user_id` / `last_updated`. -/
def ensureWM (now : Int) (uid : Option String) (v : JFields) : JFields :=
  match lookupJ v "workout_memory" with
  | none =>
      match uid with
      | some s => setJ v "workout_memory"
          (.obj [("user_id", .str s), ("last_updated", .num now)])
      | none => v
  | some (.obj wm) => setJ v "workout_memory" (.obj (wmAdjust now uid wm))
  | some _ => v

/-- `OverallMemory.ensure_user_profile_and_defaults` (schemas.py lines
1084-1133): wrap bare-list components, resolve the user id from the
profile / user-info / passed id (in that order, Python truthiness), fill
the profile's missing identity and timestamp keys or create a fresh
profile, default the workout-memory component, and drop the passed-id
key.  (The `medical_history`-component merge is not modelled; no such
component exists in the modelled store.) -/
def ensureDefaults (now : Int) (values : JFields) : JFields :=
  let v := listWrapKeys.foldl wrapIfList values
  let uid := resolveUserId v
  eraseJ (ensureWM now uid (ensureProfile now uid v)) "_passed_user_id"

/-- the `Optional[UserInfo]` field of the aggregate. -/
def validateUserInfoField : Option Json → Option (Option UserInfo)
  | none => some none
  | some .null => some none
  | some (.obj f) => (validateUserInfo f).map some
  | some _ => none

/-- the `Optional[UserProfile]` field of the aggregate. -/
def validateUserProfileField : Option Json → Option (Option UserProfile)
  | none => some none
  | some .null => some none
  | some (.obj f) => (validateUserProfile f).map some
  | some _ => none

/-- the `WorkoutMemory` field: its default factory itself fails
validation (it lacks the required `user_id`), so an absent component is
an aggregate-level failure. -/
def validateWMField : Option Json → Option WorkoutMemory
  | some (.obj f) => validateWorkoutMemory f
  | _ => none

/-- the `ChatHistory` field: all-default on absence. -/
def validateChatField : Option Json → Option ChatHistory
  | none => some ⟨none, [], none⟩
  | some (.obj f) => validateChatHistory f
  | some _ => none

/-- `OverallMemory.model_validate`: the pre root validator followed by
per-field validation; any field failure fails the whole aggregate. -/
def validateOverallMemory (now : Int) (values : JFields) : Option Mem :=
  let v := ensureDefaults now values
  (validateUserInfoField (lookupJ v "user_info")).bind fun ui =>
  (validateUserProfileField (lookupJ v "user_profile")).bind fun up =>
  (validateWMField (lookupJ v "workout_memory")).bind fun wm =>
  (validateRaw (lookupJ v "activities")).bind fun act =>
  (validateRaw (lookupJ v "biometrics")).bind fun bio =>
  (validateRaw (lookupJ v "workout_plan")).bind fun wp =>
  (validateChatField (lookupJ v "chat_history")).map fun ch =>
  ⟨ui, up, wm, act, bio, wp, ch⟩

/-- one stored component file: unparseable JSON or a parsed value. -/
inductive FileContent where
  | malformed : FileContent
  | content (j : Json) : FileContent

/-- `from_user_dir` migration of one workout dict (schemas.py lines
1154-1157): when the `workout_type` key exists with a value other than
`"Other"`, overwrite `original_type` with it. -/
def migrateSetOT (f : JFields) : Option Json → JFields
  | none => f
  | some .null => setJ f "original_type" .null
  | some (.bool b) => setJ f "original_type" (.bool b)
  | some (.num n) => setJ f "original_type" (.num n)
  | some (.str s) => if s = "Other" then f else setJ f "original_type" (.str s)
  | some (.arr es) => setJ f "original_type" (.arr es)
  | some (.obj fs) => setJ f "original_type" (.obj fs)

def migrateWorkoutFields (f : JFields) : JFields :=
  migrateSetOT f (lookupJ f "workout_type")

/-- one element of `recent_workouts` during migration: a dict is
migrated; iterating a list or string mutates nothing; `null`, booleans
and numbers raise `TypeError` in `'workout_type' in workout`, which
skips the whole component. -/
def migrateWorkoutElem : Json → Option Json
  | .obj f => some (.obj (migrateWorkoutFields f))
  | .arr l => some (.arr l)
  | .str s => some (.str s)
  | _ => none

def migrateWorkoutList : List Json → Option (List Json)
  | [] => some []
  | j :: rest =>
      (migrateWorkoutElem j).bind fun j' =>
      (migrateWorkoutList rest).map fun rest' => j' :: rest' 

/-- the `workout_memory` branch of `from_user_dir`'s read loop: migrate
the members of `recent_workouts` when that key holds a list; membership
tests on non-dict data either do nothing or raise (skipping the
component, modelled as `none`). -/
def migrateWorkoutMemory : Json → Option Json
  | .obj f =>
      match lookupJ f "recent_workouts" with
      | none => some (.obj f)
      | some (.arr ws) =>
          match migrateWorkoutList ws with
          | some ws' => some (.obj (setJ f "recent_workouts" (.arr ws')))
          | none => none
      | some (.str s) => some (.obj (setJ f "recent_workouts" (.str s)))
      | some (.obj g) => some (.obj (setJ f "recent_workouts" (.obj g)))
      | some _ => none
  | .arr l => some (.arr l)
  | .str s => some (.str s)
  | _ => none

def collectComponent (name : String) (j : Json) : Option Json :=
  if name = "workout_memory" then migrateWorkoutMemory j else some j

/-- one iteration of `from_user_dir`'s read loop: store a parseable
component under its file name, skipping malformed files and components
whose migration raised. -/
def collectStep (acc : JFields) (nf : String × FileContent) : JFields :=
  match nf.2 with
  | .malformed => acc
  | .content j =>
      match collectComponent nf.1 j with
      | none => acc
      | some j' => setJ acc nf.1 j'

/-- the read loop of `from_user_dir` (schemas.py lines 1145-1201). -/
def collectComponents (files : List (String × FileContent)) : JFields :=
  files.foldl collectStep []

/-- `OverallMemory.from_user_dir` (schemas.py lines 1135-1212): a
missing directory or an empty one validates the bare passed id; else the
collected components (plus the passed id) are validated as a whole, and
on any failure the bare passed id is validated instead.  `none` models
the load itself raising (possible only for an empty user id). -/
def from_user_dir (now : Int) (userId : String)
    (dir : Option (List (String × FileContent))) : Option Mem :=
  match dir with
  | none => validateOverallMemory now [("_passed_user_id", .str userId)]
  | some files =>
      if files.isEmpty then validateOverallMemory now [("_passed_user_id", .str userId)]
      else
        match validateOverallMemory now
            (setJ (collectComponents files) "_passed_user_id" (.str userId)) with
        | some m => some m
        | none => validateOverallMemory now [("_passed_user_id", .str userId)]

/-- `json.dump(value)` of an optional component. -/
def optDump (f : A → Json) : Option A → Json
  | none => .null
  | some x => f x

/-- `MemoryManager.save_memory` (manager.py lines 91-96): one file per
`model_dump` item, in field order. -/
def Mem.dump (m : Mem) : List (String × FileContent) :=
  [("user_info", .content (optDump UserInfo.dump m.user_info)),
   ("user_profile", .content (optDump UserProfile.dump m.user_profile)),
   ("workout_memory", .content (WorkoutMemory.dump m.workout_memory)),
   ("activities", .content (.obj m.activities)),
   ("biometrics", .content (.obj m.biometrics)),
   ("workout_plan", .content (.obj m.workout_plan)),
   ("chat_history", .content (ChatHistory.dump m.chat_history))]

/-- the default-empty aggregate produced for a fresh user id. -/
def defaultMem (now : Int) (uid : String) : Mem :=
  ⟨none, some ⟨uid, none, none, now, now⟩, ⟨uid, now, []⟩, [], [], [],
   ⟨none, [], none⟩⟩



/-! ## C3: load-time fault tolerance -/

theorem setJ_self (v : JFields) (k : String) (x : Json)
    (h : lookupJ v k = some x) : setJ v k x = v := by
  induction v with
  | nil => simp [lookupJ] at h
  | cons hd tl ih =>
      obtain ⟨k₀, v₀⟩ := hd
      by_cases hk : k₀ = k
      · subst hk
        simp [lookupJ] at h
        simp [setJ, h]
      · have hne : ¬ (k₀ = k) := hk
        simp [lookupJ, hne] at h
        simp [setJ, hne, ih h]

set_option maxHeartbeats 1000000 in
theorem validate_passed (now : Int) (uid : String) (h : uid ≠ "") :
    validateOverallMemory now [("_passed_user_id", .str uid)] =
      some (defaultMem now uid) := by
  simp [validateOverallMemory, ensureDefaults, listWrapKeys, wrapIfList,
        resolveUserId, ensureProfile, ensureWM, profAdjust, wmAdjust,
        truthyUserId, hasKey,
        lookupJ, setJ, eraseJ, validateUserInfoField, validateUserProfileField,
        validateWMField, validateChatField, validateUserProfile,
        validateWorkoutMemory, validateRecentList, getReqStr, getReqNum,
        getOptStr, validateRaw, defaultMem, h]

/-- C3, first part: loading never raises for a non-empty user id. -/
theorem load_never_fails (now : Int) (uid : String)
    (dir : Option (List (String × FileContent))) (h : uid ≠ "") :
    (from_user_dir now uid dir).isSome := by
  cases dir with
  | none => simp [from_user_dir, validate_passed now uid h]
  | some files =>
      by_cases hf : files.isEmpty
      · simp [from_user_dir, hf, validate_passed now uid h]
      · simp only [from_user_dir, hf, Bool.false_eq_true, if_false]
        cases hv : validateOverallMemory now
            (setJ (collectComponents files) "_passed_user_id" (.str uid)) with
        | some m => simp [hv]
        | none => simp [hv, validate_passed now uid h]

theorem collectComponents_malformed (pre post : List (String × FileContent))
    (n : String) :
    collectComponents (pre ++ (n, .malformed) :: post) =
      collectComponents (pre ++ post) := by
  simp [collectComponents, List.foldl_append, collectStep]

theorem from_user_dir_nonempty (now : Int) (uid : String)
    (files : List (String × FileContent)) (h : files.isEmpty = false) :
    from_user_dir now uid (some files) =
      match validateOverallMemory now
          (setJ (collectComponents files) "_passed_user_id" (.str uid)) with
      | some m => some m
      | none => validateOverallMemory now [("_passed_user_id", .str uid)] := by
  show (if files.isEmpty = true then
          validateOverallMemory now [("_passed_user_id", .str uid)]
        else
          match validateOverallMemory now
              (setJ (collectComponents files) "_passed_user_id" (.str uid)) with
          | some m => some m
          | none => validateOverallMemory now [("_passed_user_id", .str uid)]) = _
  rw [h]
  rfl

/-- C3, second part: a component file holding unparseable JSON is
skipped exactly as if it were absent — siblings are unaffected. -/
theorem load_skips_malformed (now : Int) (uid : String)
    (pre post : List (String × FileContent)) (n : String) :
    from_user_dir now uid (some (pre ++ (n, .malformed) :: post)) =
      from_user_dir now uid (some (pre ++ post)) := by
  have hne : (pre ++ (n, FileContent.malformed) :: post).isEmpty = false := by
    cases pre <;> simp [List.isEmpty]
  by_cases hpp : (pre ++ post).isEmpty
  · have hnil : pre ++ post = [] := List.isEmpty_iff.mp hpp
    have hpre : pre = [] := (List.append_eq_nil.mp hnil).1
    have hpost : post = [] := (List.append_eq_nil.mp hnil).2
    subst hpre; subst hpost
    simp only [List.nil_append]
    rw [from_user_dir_nonempty now uid _ (by simp [List.isEmpty])]
    have hcoll : collectComponents [(n, FileContent.malformed)] = [] := rfl
    rw [hcoll]
    have hset : setJ ([] : JFields) "_passed_user_id" (.str uid) =
        [("_passed_user_id", .str uid)] := rfl
    rw [hset]
    have hempty : from_user_dir now uid (some ([] : List (String × FileContent))) =
        validateOverallMemory now [("_passed_user_id", .str uid)] := rfl
    rw [hempty]
    cases hv : validateOverallMemory now [("_passed_user_id", .str uid)] with
    | some m => simp [hv]
    | none => simp [hv]
  · have hppf : (pre ++ post).isEmpty = false := by
      cases hx : (pre ++ post).isEmpty
      · rfl
      · exact absurd hx hpp
    rw [from_user_dir_nonempty now uid _ hne, from_user_dir_nonempty now uid _ hppf,
        collectComponents_malformed]

theorem lookupJ_collectStep_ne (acc : JFields) (nf : String × FileContent)
    (k : String) (h : nf.1 ≠ k) :
    lookupJ (collectStep acc nf) k = lookupJ acc k := by
  unfold collectStep
  split
  · rfl
  · split
    · rfl
    · rw [lookupJ_setJ, if_neg (fun hh => h hh.symm)]

theorem lookupJ_collect_not_mem (files : List (String × FileContent))
    (k : String) (hk : ∀ nf ∈ files, nf.1 ≠ k) :
    lookupJ (collectComponents files) k = none := by
  suffices h : ∀ (files' : List (String × FileContent)) (acc : JFields),
      (∀ nf ∈ files', nf.1 ≠ k) → lookupJ acc k = none →
      lookupJ (files'.foldl collectStep acc) k = none from h files [] hk rfl
  intro files'
  induction files' with
  | nil => exact fun acc _ hacc => hacc
  | cons nf rest ih =>
      intro acc hkk hacc
      simp only [List.foldl_cons]
      refine ih _ (fun q hq => hkk q (List.mem_cons_of_mem _ hq)) ?_
      rw [lookupJ_collectStep_ne _ _ _ (hkk nf (List.mem_cons_self _ _))]
      exact hacc

theorem lookupJ_wrapIfList_none (v : JFields) (key c : String)
    (h : lookupJ v c = none) : lookupJ (wrapIfList v key) c = none := by
  unfold wrapIfList
  cases hlv : lookupJ v key with
  | none => exact h
  | some w =>
      cases w <;> try exact h
      rw [lookupJ_setJ]
      by_cases hkc : c = key
      · subst hkc; rw [h] at hlv; cases hlv
      · simp [hkc, h]

theorem lookupJ_foldl_wrap_none (keys : List String) (v : JFields) (c : String)
    (h : lookupJ v c = none) :
    lookupJ (keys.foldl wrapIfList v) c = none := by
  induction keys generalizing v with
  | nil => simpa using h
  | cons key rest ih =>
      simp only [List.foldl_cons]
      exact ih _ (lookupJ_wrapIfList_none v key c h)

theorem lookupJ_ensureProfile_ne (now : Int) (uid : Option String)
    (v : JFields) (c : String) (hc : c ≠ "user_profile") :
    lookupJ (ensureProfile now uid v) c = lookupJ v c := by
  simp only [ensureProfile]
  split
  · split
    · rw [lookupJ_setJ]; simp [hc]
    · rw [lookupJ_setJ]; simp [hc]
  · split <;> (rw [lookupJ_setJ]; simp [hc])
  · split <;> (rw [lookupJ_setJ]; simp [hc])
  · rw [lookupJ_setJ]; simp [hc]

theorem lookupJ_ensureWM_ne (now : Int) (uid : Option String)
    (v : JFields) (c : String) (hc : c ≠ "workout_memory") :
    lookupJ (ensureWM now uid v) c = lookupJ v c := by
  simp only [ensureWM]
  split
  · split
    · rw [lookupJ_setJ]; simp [hc]
    · rfl
  · rw [lookupJ_setJ]; simp [hc]
  · rfl

theorem lookupJ_ensureDefaults_chat (now : Int) (values : JFields)
    (h : lookupJ values "chat_history" = none) :
    lookupJ (ensureDefaults now values) "chat_history" = none := by
  simp only [ensureDefaults]
  rw [lookupJ_eraseJ]
  simp only [String.reduceEq, if_false]
  rw [lookupJ_ensureWM_ne _ _ _ _ (by decide),
      lookupJ_ensureProfile_ne _ _ _ _ (by decide)]
  exact lookupJ_foldl_wrap_none _ _ _ h

theorem validate_chat_default (now : Int) (values : JFields) (m : Mem)
    (h : lookupJ values "chat_history" = none)
    (hv : validateOverallMemory now values = some m) :
    m.chat_history = ⟨none, [], none⟩ := by
  simp only [validateOverallMemory] at hv
  rw [lookupJ_ensureDefaults_chat now values h] at hv
  simp only [validateChatField, Option.bind_eq_some, Option.map_eq_some'] at hv
  rcases hv with ⟨ui, hui, up, hup, wm, hwm, act, hact, bio, hbio, wp, hwp, ch, hch, hm⟩
  cases hch
  rw [← hm]

/-- C3, third part: a component with no stored file takes its
default-empty value (shown for the chat history). -/
theorem load_missing_component_defaults (now : Int) (uid : String)
    (files : List (String × FileContent)) (m : Mem)
    (hk : ∀ nf ∈ files, nf.1 ≠ "chat_history")
    (hv : from_user_dir now uid (some files) = some m) :
    m.chat_history = ⟨none, [], none⟩ := by
  unfold from_user_dir at hv
  by_cases hf : files.isEmpty
  · simp only [hf, if_true] at hv
    exact validate_chat_default now _ m (by simp [lookupJ]) hv
  · simp only [hf, Bool.false_eq_true, if_false] at hv
    cases hval : validateOverallMemory now
        (setJ (collectComponents files) "_passed_user_id" (.str uid)) with
    | some m' =>
        rw [hval] at hv
        injection hv with hv'
        subst hv'
        refine validate_chat_default now _ m' ?_ hval
        rw [lookupJ_setJ]
        simp [lookupJ_collect_not_mem files _ hk]
    | none =>
        rw [hval] at hv
        exact validate_chat_default now _ m (by simp [lookupJ]) hv


/-- C3 amended: `load(userId)` never hard-fails for a non-empty user id;
a missing component file yields the component's default-empty value
(shown for chat history); a component file whose content is unparseable
JSON is skipped exactly as if absent, leaving siblings intact; but a
component that parses and then fails schema validation makes the ENTIRE
aggregate fall back to the default-empty aggregate — the valid sibling
components are lost as well, contrary to the original claim. -/
theorem load_fault_tolerance (now : Int) (uid : String)
    (dir : Option (List (String × FileContent)))
    (pre post : List (String × FileContent)) (n : String)
    (files : List (String × FileContent)) (m : Mem) (h : uid ≠ "") :
    (from_user_dir now uid dir).isSome ∧
    (from_user_dir now uid (some (pre ++ (n, .malformed) :: post)) =
      from_user_dir now uid (some (pre ++ post))) ∧
    ((∀ nf ∈ files, nf.1 ≠ "chat_history") →
      from_user_dir now uid (some files) = some m →
      m.chat_history = ⟨none, [], none⟩) ∧
    (files.isEmpty = false →
      validateOverallMemory now
        (setJ (collectComponents files) "_passed_user_id" (.str uid)) = none →
      from_user_dir now uid (some files) = some (defaultMem now uid)) := by
  refine ⟨load_never_fails now uid dir h,
          load_skips_malformed now uid pre post n,
          load_missing_component_defaults now uid files m,
          fun hne hval => ?_⟩
  rw [from_user_dir_nonempty now uid files hne, hval, validate_passed now uid h]

/-- Witness for `load_fault_tolerance`: a user directory holding only a
schema-invalid chat history (conversations bound to a number) loads as
the default-empty aggregate. -/
theorem load_fault_tolerance_witness :
    from_user_dir 0 "u1"
        (some [("chat_history", .content (.obj [("conversations", .num 3)]))]) =
      some (defaultMem 0 "u1") :=
  (load_fault_tolerance 0 "u1" none [] [] "x"
      [("chat_history", .content (.obj [("conversations", .num 3)]))]
      (defaultMem 0 "u1") (by decide)).2.2.2 rfl rfl

/-- C3 counterexample: a valid `workout_memory` component (one stored
workout) loads intact on its own, but adding a corrupt sibling
(`chat_history` whose `conversations` is a number) wipes it: the load
yields the default-empty aggregate with zero workouts, so one corrupt
component DOES cause a valid sibling component to be lost. -/
theorem load_sibling_loss_cex :
    (from_user_dir 50 "u1" (some
      [("workout_memory", .content (.obj [("user_id", .str "u1"),
          ("last_updated", .num 0),
          ("recent_workouts", .arr [.obj [("workout_type", .str "Running"),
            ("start_date", .num 100), ("end_date", .num 200)]])]))])).map
      (fun m => m.workout_memory.recent_workouts.length) = some 1 ∧
    (from_user_dir 50 "u1" (some
      [("workout_memory", .content (.obj [("user_id", .str "u1"),
          ("last_updated", .num 0),
          ("recent_workouts", .arr [.obj [("workout_type", .str "Running"),
            ("start_date", .num 100), ("end_date", .num 200)]])])),
       ("chat_history", .content (.obj [("conversations", .num 3)]))])).map
      (fun m => m.workout_memory.recent_workouts.length) = some 0 :=
  ⟨rfl, rfl⟩

/-! ## C8: the load / save / load round trip -/

/-- `model_dump` field list of one workout. -/
def Workout.dumpFields (w : Workout) : JFields :=
  [("workout_type", optStrJ w.workout_type),
   ("original_type", optStrJ w.original_type),
   ("start_date", optNumJ w.start_date),
   ("end_date", optNumJ w.end_date),
   ("duration_seconds", optNumJ w.duration_seconds)]

theorem Workout.dump_eq_dumpFields (w : Workout) :
    Workout.dump w = .obj w.dumpFields := rfl

/-- the invariants every workout of a loaded aggregate satisfies (the
migration pass and the normalising validator enforce them), minus the
`"Other"` case, which they do NOT enforce. -/
def WorkoutInv (w : Workout) : Prop :=
  (w.workout_type = none → w.original_type = none) ∧
  (∀ x, w.workout_type = some x → x ≠ "Other" → w.original_type = some x) ∧
  (w.duration_seconds = none → ∀ s e, w.start_date = some s →
      w.end_date = some e → ¬ s < e)

/-- dumping a workout, re-running the load migration on it and
re-validating reproduces the workout — provided it satisfies the load
invariants AND, when its type is `"Other"`, its original type is
populated (the round trip genuinely breaks otherwise). -/
theorem workout_roundtrip (w : Workout) (hinv : WorkoutInv w)
    (hOther : w.workout_type = some "Other" → w.original_type ≠ none) :
    validateWorkout (.obj (migrateWorkoutFields w.dumpFields)) = some w := by
  obtain ⟨wt, ot, sd, ed, ds⟩ := w
  obtain ⟨h1, h2, h3⟩ := hinv
  simp only [Workout.dumpFields] at *
  cases wt with
  | none =>
      have hot : ot = none := h1 rfl
      subst hot
      cases ds with
      | some d =>
          cases sd <;> cases ed <;>
            simp [migrateWorkoutFields, migrateSetOT, validateWorkout, normalizeWorkout, typeStep1, typeStep2, durationStep,
              lookupJ, setJ, getOptStr, getOptNum, isNoneVal, optStrJ, optNumJ]
      | none =>
          cases hsd : sd with
          | none =>
              cases ed <;>
                simp [migrateWorkoutFields, migrateSetOT, validateWorkout, normalizeWorkout, typeStep1, typeStep2, durationStep,
                  lookupJ, setJ, getOptStr, getOptNum, isNoneVal, optStrJ, optNumJ]
          | some s =>
              cases hed : ed with
              | none =>
                  simp [migrateWorkoutFields, migrateSetOT, validateWorkout, normalizeWorkout, typeStep1, typeStep2, durationStep,
                    lookupJ, setJ, getOptStr, getOptNum, isNoneVal, optStrJ, optNumJ]
              | some e =>
                  have hne := h3 rfl s e hsd hed
                  simp [migrateWorkoutFields, migrateSetOT, validateWorkout, normalizeWorkout, typeStep1, typeStep2, durationStep,
                    lookupJ, setJ, getOptStr, getOptNum, isNoneVal, optStrJ, optNumJ,
                    hne]
  | some x =>
      by_cases hx : x = "Other"
      · subst hx
        have hot := hOther rfl
        cases hot' : ot with
        | none => exact absurd hot' hot
        | some y =>
            subst hot'
            cases ds with
            | some d =>
                cases sd <;> cases ed <;>
                  simp [migrateWorkoutFields, migrateSetOT, validateWorkout, normalizeWorkout, typeStep1, typeStep2, durationStep,
                    lookupJ, setJ, getOptStr, getOptNum, isNoneVal, optStrJ, optNumJ]
            | none =>
                cases hsd : sd with
                | none =>
                    cases ed <;>
                      simp [migrateWorkoutFields, migrateSetOT, validateWorkout, normalizeWorkout, typeStep1, typeStep2, durationStep,
                        lookupJ, setJ, getOptStr, getOptNum, isNoneVal, optStrJ, optNumJ]
                | some s =>
                    cases hed : ed with
                    | none =>
                        simp [migrateWorkoutFields, migrateSetOT, validateWorkout, normalizeWorkout, typeStep1, typeStep2, durationStep,
                          lookupJ, setJ, getOptStr, getOptNum, isNoneVal, optStrJ, optNumJ]
                    | some e =>
                        have hne := h3 rfl s e hsd hed
                        simp [migrateWorkoutFields, migrateSetOT, validateWorkout, normalizeWorkout, typeStep1, typeStep2, durationStep,
                          lookupJ, setJ, getOptStr, getOptNum, isNoneVal, optStrJ,
                          optNumJ, hne]
      · have hot : ot = some x := h2 x rfl hx
        subst hot
        cases ds with
        | some d =>
            cases sd <;> cases ed <;>
              simp [migrateWorkoutFields, migrateSetOT, validateWorkout, normalizeWorkout, typeStep1, typeStep2, durationStep,
                lookupJ, setJ, getOptStr, getOptNum, isNoneVal, optStrJ, optNumJ, hx]
        | none =>
            cases hsd : sd with
            | none =>
                cases ed <;>
                  simp [migrateWorkoutFields, migrateSetOT, validateWorkout, normalizeWorkout, typeStep1, typeStep2, durationStep,
                    lookupJ, setJ, getOptStr, getOptNum, isNoneVal, optStrJ, optNumJ, hx]
            | some s =>
                cases hed : ed with
                | none =>
                    simp [migrateWorkoutFields, migrateSetOT, validateWorkout, normalizeWorkout, typeStep1, typeStep2, durationStep,
                      lookupJ, setJ, getOptStr, getOptNum, isNoneVal, optStrJ, optNumJ, hx]
                | some e =>
                    have hne := h3 rfl s e hsd hed
                    simp [migrateWorkoutFields, migrateSetOT, validateWorkout, normalizeWorkout, typeStep1, typeStep2, durationStep,
                      lookupJ, setJ, getOptStr, getOptNum, isNoneVal, optStrJ, optNumJ,
                      hx, hne]



theorem lookupJ_typeStep1_ne (f : JFields) (c : String) (hc : c ≠ "original_type") :
    lookupJ (typeStep1 f) c = lookupJ f c := by
  simp only [typeStep1]
  split
  · split
    · rw [lookupJ_setJ, if_neg hc]
    · rfl
  · rfl

theorem lookupJ_typeStep2_ne (f : JFields) (c : String) (hc : c ≠ "workout_type") :
    lookupJ (typeStep2 f) c = lookupJ f c := by
  simp only [typeStep2]
  split
  · split <;> rw [lookupJ_setJ, if_neg hc]
  · rfl

theorem lookupJ_durationStep_ne (f : JFields) (c : String)
    (hc : c ≠ "duration_seconds") :
    lookupJ (durationStep f) c = lookupJ f c := by
  simp only [durationStep]
  split
  · split <;> (try split) <;> first | rw [lookupJ_setJ, if_neg hc] | rfl
  · rfl

theorem lookupJ_typeStep1_ot (f : JFields) :
    lookupJ (typeStep1 f) "original_type" =
      if (isNoneVal (lookupJ f "original_type") &&
          !isNoneVal (lookupJ f "workout_type")) = true then
        lookupJ f "workout_type"
      else lookupJ f "original_type" := by
  by_cases hcond : (isNoneVal (lookupJ f "original_type") &&
      !isNoneVal (lookupJ f "workout_type")) = true
  · simp only [typeStep1, hcond, if_true]
    cases hv : lookupJ f "workout_type" with
    | none =>
        rw [hv] at hcond
        simp [isNoneVal] at hcond
    | some v =>
        simp only
        rw [lookupJ_setJ, if_pos rfl]
  · rw [Bool.not_eq_true] at hcond
    simp only [typeStep1, hcond, Bool.false_eq_true, if_false]

theorem lookupJ_typeStep2_wt (f : JFields) :
    lookupJ (typeStep2 f) "workout_type" =
      if isNoneVal (lookupJ f "workout_type") = true then
        (match lookupJ f "original_type" with
         | some v => some v
         | none => some (.str "Other"))
      else lookupJ f "workout_type" := by
  by_cases hcond : isNoneVal (lookupJ f "workout_type") = true
  · simp only [typeStep2, hcond, if_true]
    cases hb : lookupJ f "original_type" with
    | none => simp only; rw [lookupJ_setJ, if_pos rfl]
    | some v => simp only; rw [lookupJ_setJ, if_pos rfl]
  · rw [Bool.not_eq_true] at hcond
    simp only [typeStep2, hcond, Bool.false_eq_true, if_false]

theorem durationStep_not_lt (f : JFields) (s e : Int)
    (hsd : lookupJ f "start_date" = some (.num s))
    (hed : lookupJ f "end_date" = some (.num e))
    (hds : isNoneVal (lookupJ (durationStep f) "duration_seconds") = true) :
    ¬ s < e := by
  intro hlt
  simp only [durationStep, hsd, hed] at hds
  by_cases h0 : isNoneVal (lookupJ f "duration_seconds") = true
  · rw [if_pos h0, if_pos hlt] at hds
    rw [lookupJ_setJ, if_pos rfl] at hds
    simp [isNoneVal] at hds
  · rw [if_neg h0] at hds
    exact h0 hds

theorem getOptStr_none_val (f : JFields) (k : String)
    (h : getOptStr f k = some none) : isNoneVal (lookupJ f k) = true := by
  unfold getOptStr at h
  cases hl : lookupJ f k with
  | none => rfl
  | some v => rw [hl] at h; cases v <;> simp_all [isNoneVal]

theorem getOptStr_some_val (f : JFields) (k : String) (s : String)
    (h : getOptStr f k = some (some s)) : lookupJ f k = some (.str s) := by
  unfold getOptStr at h
  cases hl : lookupJ f k with
  | none => rw [hl] at h; cases h
  | some v => rw [hl] at h; cases v <;> simp_all

theorem getOptNum_none_val (f : JFields) (k : String)
    (h : getOptNum f k = some none) : isNoneVal (lookupJ f k) = true := by
  unfold getOptNum at h
  cases hl : lookupJ f k with
  | none => rfl
  | some v => rw [hl] at h; cases v <;> simp_all [isNoneVal]

theorem getOptNum_some_val (f : JFields) (k : String) (n : Int)
    (h : getOptNum f k = some (some n)) : lookupJ f k = some (.num n) := by
  unfold getOptNum at h
  cases hl : lookupJ f k with
  | none => rw [hl] at h; cases h
  | some v => rw [hl] at h; cases v <;> simp_all

/-- the field equations a successful workout validation provides. -/
theorem validateWorkout_eqs (fields : JFields) (w : Workout)
    (h : validateWorkout (.obj fields) = some w) :
    getOptStr (normalizeWorkout fields) "workout_type" = some w.workout_type ∧
    getOptStr (normalizeWorkout fields) "original_type" = some w.original_type ∧
    getOptNum (normalizeWorkout fields) "start_date" = some w.start_date ∧
    getOptNum (normalizeWorkout fields) "end_date" = some w.end_date ∧
    getOptNum (normalizeWorkout fields) "duration_seconds" = some w.duration_seconds := by
  simp only [validateWorkout] at h
  cases hwt : getOptStr (normalizeWorkout fields) "workout_type" with
  | none => rw [hwt] at h; simp at h
  | some wt =>
  cases hot : getOptStr (normalizeWorkout fields) "original_type" with
  | none => rw [hwt, hot] at h; simp at h
  | some ot =>
  cases hsd : getOptNum (normalizeWorkout fields) "start_date" with
  | none => rw [hwt, hot, hsd] at h; simp at h
  | some sd =>
  cases hed : getOptNum (normalizeWorkout fields) "end_date" with
  | none => rw [hwt, hot, hsd, hed] at h; simp at h
  | some ed =>
  cases hds : getOptNum (normalizeWorkout fields) "duration_seconds" with
  | none => rw [hwt, hot, hsd, hed, hds] at h; simp at h
  | some ds =>
      rw [hwt, hot, hsd, hed, hds] at h
      simp only [Option.some_inj] at h
      subst h
      simp [hwt, hot, hsd, hed, hds]


theorem getOptStr_null (f : JFields) (k : String)
    (h : lookupJ f k = some .null) : getOptStr f k = some none := by
  unfold getOptStr; rw [h]

theorem getOptStr_str (f : JFields) (k : String) (s : String)
    (h : lookupJ f k = some (.str s)) : getOptStr f k = some (some s) := by
  unfold getOptStr; rw [h]

theorem validateWorkout_inv1 (fields : JFields) (w : Workout)
    (h : validateWorkout (.obj fields) = some w) :
    w.workout_type = none → w.original_type = none := by
  intro hwt0
  obtain ⟨hwt, hot, -, -, -⟩ := validateWorkout_eqs fields w h
  rw [hwt0] at hwt
  have hnv := getOptStr_none_val _ _ hwt
  simp only [normalizeWorkout] at hnv hot
  rw [lookupJ_durationStep_ne _ _ (by decide), lookupJ_typeStep2_wt] at hnv
  by_cases hc : isNoneVal (lookupJ (typeStep1 fields) "workout_type") = true
  · rw [if_pos hc] at hnv
    cases hb : lookupJ (typeStep1 fields) "original_type" with
    | none => rw [hb] at hnv; simp [isNoneVal] at hnv
    | some v =>
        rw [hb] at hnv
        cases v with
        | null =>
            have hlot : lookupJ (durationStep (typeStep2 (typeStep1 fields)))
                "original_type" = some .null := by
              rw [lookupJ_durationStep_ne _ _ (by decide),
                  lookupJ_typeStep2_ne _ _ (by decide)]
              exact hb
            rw [getOptStr_null _ _ hlot] at hot
            exact (Option.some_inj.mp hot).symm
        | bool b => simp [isNoneVal] at hnv
        | num n => simp [isNoneVal] at hnv
        | str s => simp [isNoneVal] at hnv
        | arr es => simp [isNoneVal] at hnv
        | obj fs => simp [isNoneVal] at hnv
  · rw [if_neg hc] at hnv
    exact absurd hnv hc

theorem validateWorkout_inv3 (fields : JFields) (w : Workout)
    (h : validateWorkout (.obj fields) = some w) :
    w.duration_seconds = none → ∀ s e, w.start_date = some s →
      w.end_date = some e → ¬ s < e := by
  intro hds0 s e hs he
  obtain ⟨-, -, hsd, hed, hds⟩ := validateWorkout_eqs fields w h
  rw [hds0] at hds; rw [hs] at hsd; rw [he] at hed
  have hnv := getOptNum_none_val _ _ hds
  have hsl := getOptNum_some_val _ _ _ hsd
  have hel := getOptNum_some_val _ _ _ hed
  simp only [normalizeWorkout] at hnv hsl hel
  refine durationStep_not_lt (typeStep2 (typeStep1 fields)) s e ?_ ?_ hnv
  · rw [← lookupJ_durationStep_ne (typeStep2 (typeStep1 fields)) "start_date" (by decide)]
    exact hsl
  · rw [← lookupJ_durationStep_ne (typeStep2 (typeStep1 fields)) "end_date" (by decide)]
    exact hel

theorem migrateWorkoutFields_prop (f₀ : JFields) (x : String)
    (hwt : lookupJ (migrateWorkoutFields f₀) "workout_type" = some (.str x))
    (hx : x ≠ "Other") :
    lookupJ (migrateWorkoutFields f₀) "original_type" = some (.str x) := by
  unfold migrateWorkoutFields at hwt ⊢
  cases hl : lookupJ f₀ "workout_type" with
  | none =>
      rw [hl] at hwt
      replace hwt : lookupJ f₀ "workout_type" = some (Json.str x) := hwt
      rw [hl] at hwt
      cases hwt
  | some v =>
      rw [hl] at hwt
      cases v with
      | str s =>
          by_cases hso : s = "Other"
          · subst hso
            replace hwt : lookupJ f₀ "workout_type" = some (Json.str x) := hwt
            exact absurd (Json.str.inj (Option.some_inj.mp
              (hl.symm.trans hwt))).symm hx
          · replace hwt : lookupJ (if s = "Other" then f₀ else
                setJ f₀ "original_type" (Json.str s)) "workout_type" =
                some (Json.str x) := hwt
            rw [if_neg hso] at hwt
            rw [lookupJ_setJ, if_neg (by decide)] at hwt
            have hsx : s = x := Json.str.inj (Option.some_inj.mp (hl.symm.trans hwt))
            show lookupJ (if s = "Other" then f₀ else
                setJ f₀ "original_type" (Json.str s)) "original_type" =
                some (Json.str x)
            rw [if_neg hso, lookupJ_setJ, if_pos rfl, hsx]
      | null =>
          replace hwt : lookupJ (setJ f₀ "original_type" Json.null)
              "workout_type" = some (Json.str x) := hwt
          rw [lookupJ_setJ, if_neg (by decide)] at hwt
          exact absurd (hl.symm.trans hwt) (by simp)
      | bool b =>
          replace hwt : lookupJ (setJ f₀ "original_type" (Json.bool b))
              "workout_type" = some (Json.str x) := hwt
          rw [lookupJ_setJ, if_neg (by decide)] at hwt
          exact absurd (hl.symm.trans hwt) (by simp)
      | num n =>
          replace hwt : lookupJ (setJ f₀ "original_type" (Json.num n))
              "workout_type" = some (Json.str x) := hwt
          rw [lookupJ_setJ, if_neg (by decide)] at hwt
          exact absurd (hl.symm.trans hwt) (by simp)
      | arr es =>
          replace hwt : lookupJ (setJ f₀ "original_type" (Json.arr es))
              "workout_type" = some (Json.str x) := hwt
          rw [lookupJ_setJ, if_neg (by decide)] at hwt
          exact absurd (hl.symm.trans hwt) (by simp)
      | obj fs =>
          replace hwt : lookupJ (setJ f₀ "original_type" (Json.obj fs))
              "workout_type" = some (Json.str x) := hwt
          rw [lookupJ_setJ, if_neg (by decide)] at hwt
          exact absurd (hl.symm.trans hwt) (by simp)

theorem validateWorkout_migrated_inv2 (f₀ : JFields) (w : Workout)
    (h : validateWorkout (.obj (migrateWorkoutFields f₀)) = some w) :
    ∀ x, w.workout_type = some x → x ≠ "Other" → w.original_type = some x := by
  intro x hx hxo
  obtain ⟨hwt, hot, -, -, -⟩ := validateWorkout_eqs _ w h
  rw [hx] at hwt
  have hl := getOptStr_some_val _ _ _ hwt
  simp only [normalizeWorkout] at hl hot
  rw [lookupJ_durationStep_ne _ _ (by decide), lookupJ_typeStep2_wt] at hl
  by_cases hc : isNoneVal (lookupJ (typeStep1 (migrateWorkoutFields f₀))
      "workout_type") = true
  · rw [if_pos hc] at hl
    cases hb : lookupJ (typeStep1 (migrateWorkoutFields f₀)) "original_type" with
    | none =>
        rw [hb] at hl
        simp only at hl
        injection hl with hl'
        injection hl' with hl''
        exact absurd hl''.symm hxo
    | some v =>
        rw [hb] at hl
        simp only at hl
        injection hl with hl'
        subst hl'
        have hlot : lookupJ (durationStep (typeStep2 (typeStep1
            (migrateWorkoutFields f₀)))) "original_type" = some (.str x) := by
          rw [lookupJ_durationStep_ne _ _ (by decide),
              lookupJ_typeStep2_ne _ _ (by decide)]
          exact hb
        rw [getOptStr_str _ _ _ hlot] at hot
        exact (Option.some_inj.mp hot).symm
  · rw [if_neg hc] at hl
    rw [lookupJ_typeStep1_ne _ _ (by decide)] at hl
    have hot0 := migrateWorkoutFields_prop f₀ x hl hxo
    have hf1ot : lookupJ (typeStep1 (migrateWorkoutFields f₀)) "original_type" =
        some (.str x) := by
      rw [lookupJ_typeStep1_ot, hot0]
      simp [isNoneVal]
    have hlot : lookupJ (durationStep (typeStep2 (typeStep1
        (migrateWorkoutFields f₀)))) "original_type" = some (.str x) := by
      rw [lookupJ_durationStep_ne _ _ (by decide),
          lookupJ_typeStep2_ne _ _ (by decide)]
      exact hf1ot
    rw [getOptStr_str _ _ _ hlot] at hot
    exact (Option.some_inj.mp hot).symm

/-- every workout validated from a migrated dict satisfies the load
invariants. -/
theorem validateWorkout_migrated_WorkoutInv (f₀ : JFields) (w : Workout)
    (h : validateWorkout (.obj (migrateWorkoutFields f₀)) = some w) :
    WorkoutInv w :=
  ⟨validateWorkout_inv1 _ _ h, validateWorkout_migrated_inv2 _ _ h,
   validateWorkout_inv3 _ _ h⟩


/-- every workout validated out of a migrated `recent_workouts` list
satisfies the load invariants. -/
theorem migrated_list_inv (ws0 : List Json) :
    ∀ (l : List Json), migrateWorkoutList ws0 = some l →
    ∀ (ws : List Workout), validateWorkoutListJ l = some ws →
    ∀ w ∈ ws, WorkoutInv w := by
  induction ws0 with
  | nil =>
      intro l hmig ws hval w hw
      replace hmig : some ([] : List Json) = some l := hmig
      injection hmig with hmig; subst hmig
      replace hval : some ([] : List Workout) = some ws := hval
      injection hval with hval; subst hval
      cases hw
  | cons j rest ih =>
      intro l hmig ws hval w hw
      simp only [migrateWorkoutList, Option.bind_eq_some, Option.map_eq_some'] at hmig
      rcases hmig with ⟨j', hj, rest', hrest, hl⟩
      subst hl
      simp only [validateWorkoutListJ, Option.bind_eq_some, Option.map_eq_some'] at hval
      rcases hval with ⟨w0, hw0, ws', hws', hws⟩
      subst hws
      rcases List.mem_cons.mp hw with heq | hmem
      · subst heq
        cases j with
        | obj f =>
            replace hj : some (Json.obj (migrateWorkoutFields f)) = some j' := hj
            injection hj with hj; subst hj
            exact validateWorkout_migrated_WorkoutInv f _ hw0
        | arr es =>
            replace hj : some (Json.arr es) = some j' := hj
            injection hj with hj; subst hj
            replace hw0 : (none : Option Workout) = some w := hw0
            cases hw0
        | str s =>
            replace hj : some (Json.str s) = some j' := hj
            injection hj with hj; subst hj
            replace hw0 : (none : Option Workout) = some w := hw0
            cases hw0
        | null => replace hj : (none : Option Json) = some j' := hj; cases hj
        | bool b => replace hj : (none : Option Json) = some j' := hj; cases hj
        | num n => replace hj : (none : Option Json) = some j' := hj; cases hj
      · exact ih rest' hrest ws' hws' w hmem

/-- every workout validated out of a migrated workout-memory component
satisfies the load invariants. -/
theorem migrateWM_validate_inv (j₀ : Json) (g : JFields)
    (hmig : migrateWorkoutMemory j₀ = some (.obj g))
    (ws : List Workout)
    (hval : validateRecentList (lookupJ g "recent_workouts") = some ws) :
    ∀ w ∈ ws, WorkoutInv w := by
  cases j₀ with
  | obj f =>
      simp only [migrateWorkoutMemory] at hmig
      cases hrw : lookupJ f "recent_workouts" with
      | none =>
          rw [hrw] at hmig
          replace hmig : some (Json.obj f) = some (Json.obj g) := hmig
          injection hmig with hmig
          injection hmig with hmig
          subst hmig
          rw [hrw] at hval
          replace hval : some ([] : List Workout) = some ws := hval
          injection hval with hval
          subst hval
          intro w hw
          cases hw
      | some v =>
          rw [hrw] at hmig
          cases v with
          | arr ws0 =>
              simp only [Option.bind_eq_some, Option.map_eq_some'] at hmig
              cases hml : migrateWorkoutList ws0 with
              | none => rw [hml] at hmig; cases hmig
              | some ws' =>
                  rw [hml] at hmig
                  replace hmig : some (Json.obj (setJ f "recent_workouts" (.arr ws'))) =
                      some (Json.obj g) := hmig
                  injection hmig with hmig
                  injection hmig with hmig
                  subst hmig
                  rw [lookupJ_setJ, if_pos rfl] at hval
                  replace hval : validateWorkoutListJ ws' = some ws := hval
                  exact migrated_list_inv ws0 ws' hml ws hval
          | str s =>
              replace hmig : some (Json.obj (setJ f "recent_workouts" (.str s))) =
                  some (Json.obj g) := hmig
              injection hmig with hmig
              injection hmig with hmig
              subst hmig
              rw [lookupJ_setJ, if_pos rfl] at hval
              replace hval : (none : Option (List Workout)) = some ws := hval
              cases hval
          | obj g0 =>
              replace hmig : some (Json.obj (setJ f "recent_workouts" (.obj g0))) =
                  some (Json.obj g) := hmig
              injection hmig with hmig
              injection hmig with hmig
              subst hmig
              rw [lookupJ_setJ, if_pos rfl] at hval
              replace hval : (none : Option (List Workout)) = some ws := hval
              cases hval
          | null => replace hmig : (none : Option Json) = some (Json.obj g) := hmig; cases hmig
          | bool b => replace hmig : (none : Option Json) = some (Json.obj g) := hmig; cases hmig
          | num n => replace hmig : (none : Option Json) = some (Json.obj g) := hmig; cases hmig
  | arr l =>
      replace hmig : some (Json.arr l) = some (Json.obj g) := hmig
      injection hmig with hmig; cases hmig
  | str s =>
      replace hmig : some (Json.str s) = some (Json.obj g) := hmig
      injection hmig with hmig; cases hmig
  | null => replace hmig : (none : Option Json) = some (Json.obj g) := hmig; cases hmig
  | bool b => replace hmig : (none : Option Json) = some (Json.obj g) := hmig; cases hmig
  | num n => replace hmig : (none : Option Json) = some (Json.obj g) := hmig; cases hmig


theorem lookupJ_wrapIfList_ne (v : JFields) (k c : String) (hkc : k ≠ c) :
    lookupJ (wrapIfList v k) c = lookupJ v c := by
  unfold wrapIfList
  split
  · rw [lookupJ_setJ, if_neg (fun hh => hkc hh.symm)]
  · rfl

theorem lookupJ_foldl_wrap_not_mem (keys : List String) (v : JFields) (c : String)
    (hc : ∀ k ∈ keys, k ≠ c) :
    lookupJ (keys.foldl wrapIfList v) c = lookupJ v c := by
  induction keys generalizing v with
  | nil => rfl
  | cons key rest ih =>
      simp only [List.foldl_cons]
      rw [ih _ (fun k hk => hc k (List.mem_cons_of_mem _ hk)),
          lookupJ_wrapIfList_ne _ _ _ (hc key (List.mem_cons_self _ _))]

theorem lookupJ_wrapIfList_self (v : JFields) (k : String) :
    lookupJ (wrapIfList v k) k =
      (match lookupJ v k with
       | some (.arr l) => some (.obj [(k, .arr l)])
       | x => x) := by
  unfold wrapIfList
  cases hlv : lookupJ v k with
  | none => exact hlv
  | some w =>
      cases w with
      | arr l => rw [lookupJ_setJ, if_pos rfl]
      | null => exact hlv
      | bool b => exact hlv
      | num n => exact hlv
      | str s => exact hlv
      | obj fs => exact hlv

theorem lookupJ_wrap_wm (vals : JFields) :
    lookupJ (listWrapKeys.foldl wrapIfList vals) "workout_memory" =
      (match lookupJ vals "workout_memory" with
       | some (.arr l) => some (.obj [("workout_memory", .arr l)])
       | x => x) := by
  show lookupJ (wrapIfList (wrapIfList (wrapIfList (wrapIfList
      (wrapIfList vals "activities") "biometrics") "workout_memory")
      "chat_history") "workout_plan") "workout_memory" = _
  rw [lookupJ_wrapIfList_ne _ _ _ (by decide),
      lookupJ_wrapIfList_ne _ _ _ (by decide),
      lookupJ_wrapIfList_self,
      lookupJ_wrapIfList_ne _ _ _ (by decide),
      lookupJ_wrapIfList_ne _ _ _ (by decide)]

theorem resolve_some (v : JFields) (uid : String)
    (h : lookupJ v "_passed_user_id" = some (.str uid)) (hne : uid ≠ "") :
    ∃ s, resolveUserId v = some s := by
  unfold resolveUserId
  cases h1 : truthyUserId (lookupJ v "user_profile") with
  | some s => exact ⟨s, rfl⟩
  | none =>
      cases h2 : truthyUserId (lookupJ v "user_info") with
      | some s => exact ⟨s, rfl⟩
      | none =>
          rw [h]
          refine ⟨uid, ?_⟩
          show (if uid = "" then none else some uid : Option String) = some uid
          rw [if_neg hne]

theorem validateChatField_allObjs (x : Option Json) (ch : ChatHistory)
    (h : validateChatField x = some ch) : allObjs ch.conversations = true := by
  cases x with
  | none =>
      replace h : some (⟨none, [], none⟩ : ChatHistory) = some ch := h
      injection h with h
      rw [← h]
      rfl
  | some v =>
      cases v with
      | obj f =>
          replace h : validateChatHistory f = some ch := h
          simp only [validateChatHistory, Option.bind_eq_some] at h
          rcases h with ⟨u, hu, li, hli, h⟩
          cases hc : lookupJ f "conversations" with
          | none =>
              rw [hc] at h
              replace h : some (⟨u, [], li⟩ : ChatHistory) = some ch := h
              injection h with h
              rw [← h]
              rfl
          | some w =>
              rw [hc] at h
              cases w with
              | arr l =>
                  by_cases hall : allObjs l = true
                  · replace h : (if allObjs l = true then
                        some (⟨u, l, li⟩ : ChatHistory) else none) = some ch := h
                    rw [if_pos hall] at h
                    injection h with h
                    rw [← h]
                    exact hall
                  · replace h : (if allObjs l = true then
                        some (⟨u, l, li⟩ : ChatHistory) else none) = some ch := h
                    rw [if_neg hall] at h
                    cases h
              | null => replace h : (none : Option ChatHistory) = some ch := h; cases h
              | bool b => replace h : (none : Option ChatHistory) = some ch := h; cases h
              | num n => replace h : (none : Option ChatHistory) = some ch := h; cases h
              | str s => replace h : (none : Option ChatHistory) = some ch := h; cases h
              | obj g => replace h : (none : Option ChatHistory) = some ch := h; cases h
      | null => replace h : (none : Option ChatHistory) = some ch := h; cases h
      | bool b => replace h : (none : Option ChatHistory) = some ch := h; cases h
      | num n => replace h : (none : Option ChatHistory) = some ch := h; cases h
      | str s => replace h : (none : Option ChatHistory) = some ch := h; cases h
      | arr l => replace h : (none : Option ChatHistory) = some ch := h; cases h

theorem collect_wm_migrated_aux :
    ∀ (files : List (String × FileContent)) (acc : JFields),
    (∀ j, lookupJ acc "workout_memory" = some j →
        ∃ j₀, migrateWorkoutMemory j₀ = some j) →
    ∀ j, lookupJ (files.foldl collectStep acc) "workout_memory" = some j →
      ∃ j₀, migrateWorkoutMemory j₀ = some j := by
  intro files
  induction files with
  | nil => intro acc hacc; exact hacc
  | cons nf rest ih =>
      intro acc hacc
      simp only [List.foldl_cons]
      apply ih
      obtain ⟨name, fc⟩ := nf
      intro j hj
      cases fc with
      | malformed =>
          replace hj : lookupJ acc "workout_memory" = some j := hj
          exact hacc j hj
      | content jj =>
          replace hj : lookupJ (match collectComponent name jj with
              | none => acc
              | some j' => setJ acc name j') "workout_memory" = some j := hj
          by_cases hname : name = "workout_memory"
          · subst hname
            rw [show collectComponent "workout_memory" jj = migrateWorkoutMemory jj
              from if_pos rfl] at hj
            cases hm : migrateWorkoutMemory jj with
            | none =>
                rw [hm] at hj
                replace hj : lookupJ acc "workout_memory" = some j := hj
                exact hacc j hj
            | some j' =>
                rw [hm] at hj
                replace hj : lookupJ (setJ acc "workout_memory" j')
                    "workout_memory" = some j := hj
                rw [lookupJ_setJ, if_pos rfl] at hj
                injection hj with hj
                subst hj
                exact ⟨jj, hm⟩
          · rw [show collectComponent name jj = some jj from if_neg hname] at hj
            replace hj : lookupJ (setJ acc name jj) "workout_memory" = some j := hj
            rw [lookupJ_setJ, if_neg (fun hh => hname hh.symm)] at hj
            exact hacc j hj

theorem collect_wm_migrated (files : List (String × FileContent)) :
    ∀ j, lookupJ (collectComponents files) "workout_memory" = some j →
      ∃ j₀, migrateWorkoutMemory j₀ = some j := by
  apply collect_wm_migrated_aux files []
  intro j hj
  cases hj


theorem lookupJ_wmAdjust_rec (now : Int) (uid : Option String) (wm : JFields) :
    lookupJ (wmAdjust now uid wm) "recent_workouts" =
      lookupJ wm "recent_workouts" := by
  have hstep2 : ∀ w : JFields, lookupJ w "recent_workouts" =
        lookupJ wm "recent_workouts" →
      lookupJ (if hasKey w "last_updated" = true then w
        else setJ w "last_updated" (.num now)) "recent_workouts" =
      lookupJ wm "recent_workouts" := by
    intro w hw
    split
    · exact hw
    · rw [lookupJ_setJ, if_neg (by decide)]; exact hw
  cases uid with
  | none => exact hstep2 wm rfl
  | some s =>
      refine hstep2 (if hasKey wm "user_id" = true then wm
        else setJ wm "user_id" (.str s)) ?_
      split
      · rfl
      · rw [lookupJ_setJ, if_neg (by decide)]

theorem ensureWM_obj (now : Int) (uid : Option String) (v : JFields)
    (wmf : JFields) (hwv : lookupJ v "workout_memory" = some (.obj wmf)) :
    lookupJ (ensureWM now uid v) "workout_memory" =
        some (.obj (wmAdjust now uid wmf)) := by
  unfold ensureWM
  rw [hwv]
  show lookupJ (setJ v "workout_memory" (.obj (wmAdjust now uid wmf)))
      "workout_memory" = some (.obj (wmAdjust now uid wmf))
  rw [lookupJ_setJ, if_pos rfl]

theorem validate_wm_inv (now : Int) (vals : JFields) (m : Mem)
    (hv : validateOverallMemory now vals = some m)
    (hmig : ∀ j, lookupJ vals "workout_memory" = some j →
        ∃ j₀, migrateWorkoutMemory j₀ = some j) :
    ∀ w ∈ m.workout_memory.recent_workouts, WorkoutInv w := by
  simp only [validateOverallMemory, Option.bind_eq_some, Option.map_eq_some'] at hv
  rcases hv with ⟨ui, hui, up, hup, wm, hwm, act, hact, bio, hbio, wp, hwp, ch, hch, hm⟩
  have hmwm : m.workout_memory = wm := by rw [← hm]
  rw [hmwm]
  have hed : lookupJ (ensureDefaults now vals) "workout_memory" =
      lookupJ (ensureWM now (resolveUserId (listWrapKeys.foldl wrapIfList vals))
        (ensureProfile now (resolveUserId (listWrapKeys.foldl wrapIfList vals))
          (listWrapKeys.foldl wrapIfList vals))) "workout_memory" := by
    simp only [ensureDefaults]
    rw [lookupJ_eraseJ, if_neg (by decide)]
  rw [hed] at hwm
  have h1 : lookupJ (ensureProfile now
        (resolveUserId (listWrapKeys.foldl wrapIfList vals))
        (listWrapKeys.foldl wrapIfList vals)) "workout_memory" =
      lookupJ (listWrapKeys.foldl wrapIfList vals) "workout_memory" :=
    lookupJ_ensureProfile_ne _ _ _ _ (by decide)
  cases hwv : lookupJ (ensureProfile now
      (resolveUserId (listWrapKeys.foldl wrapIfList vals))
      (listWrapKeys.foldl wrapIfList vals)) "workout_memory" with
  | none =>
      have hnone : lookupJ (ensureWM now
          (resolveUserId (listWrapKeys.foldl wrapIfList vals))
          (ensureProfile now (resolveUserId (listWrapKeys.foldl wrapIfList vals))
            (listWrapKeys.foldl wrapIfList vals))) "workout_memory" =
          match resolveUserId (listWrapKeys.foldl wrapIfList vals) with
          | some s => some (.obj [("user_id", .str s), ("last_updated", .num now)])
          | none => none := by
        simp only [ensureWM, hwv]
        cases hres : resolveUserId (listWrapKeys.foldl wrapIfList vals) with
        | some s => rw [lookupJ_setJ, if_pos rfl]
        | none => rw [hres] at hwv; exact hwv
      rw [hnone] at hwm
      cases hres : resolveUserId (listWrapKeys.foldl wrapIfList vals) with
      | none =>
          rw [hres] at hwm
          replace hwm : (none : Option WorkoutMemory) = some wm := hwm
          cases hwm
      | some s =>
          rw [hres] at hwm
          replace hwm : validateWorkoutMemory
              [("user_id", .str s), ("last_updated", .num now)] = some wm := hwm
          replace hwm : some (⟨s, now, []⟩ : WorkoutMemory) = some wm := hwm
          injection hwm with hwm
          intro w hw
          rw [← hwm] at hw
          cases hw
  | some jv =>
      have hv'wm : lookupJ (listWrapKeys.foldl wrapIfList vals) "workout_memory" =
          some jv := by rw [← h1, hwv]
      cases jv with
      | obj wmf =>
          rw [ensureWM_obj now _ _ wmf hwv] at hwm
          replace hwm : validateWorkoutMemory (wmAdjust now
              (resolveUserId (listWrapKeys.foldl wrapIfList vals)) wmf) =
              some wm := hwm
          simp only [validateWorkoutMemory, Option.bind_eq_some,
            Option.map_eq_some'] at hwm
          rcases hwm with ⟨u, hu, lu, hlu, ws, hws, hwm⟩
          rw [lookupJ_wmAdjust_rec] at hws
          intro w hw
          rw [← hwm] at hw
          replace hw : w ∈ ws := hw
          -- where does wmf's recent list come from?
          rw [lookupJ_wrap_wm] at hv'wm
          cases hvwm : lookupJ vals "workout_memory" with
          | none => rw [hvwm] at hv'wm; cases hv'wm
          | some j0v =>
              rw [hvwm] at hv'wm
              cases j0v with
              | arr l =>
                  replace hv'wm : some (Json.obj [("workout_memory", .arr l)]) =
                      some (.obj wmf) := hv'wm
                  injection hv'wm with hv'wm
                  injection hv'wm with hv'wm
                  rw [← hv'wm] at hws
                  replace hws : validateRecentList none = some ws := hws
                  replace hws : some ([] : List Workout) = some ws := hws
                  injection hws with hws
                  rw [← hws] at hw
                  cases hw
              | obj g =>
                  replace hv'wm : some (Json.obj g) = some (.obj wmf) := hv'wm
                  injection hv'wm with hv'wm
                  injection hv'wm with hv'wm
                  subst hv'wm
                  rcases hmig _ hvwm with ⟨j₀, hj₀⟩
                  exact migrateWM_validate_inv j₀ g hj₀ ws hws w hw
              | null =>
                  replace hv'wm : some Json.null = some (.obj wmf) := hv'wm
                  injection hv'wm with hv'wm; cases hv'wm
              | bool b =>
                  replace hv'wm : some (Json.bool b) = some (.obj wmf) := hv'wm
                  injection hv'wm with hv'wm; cases hv'wm
              | num n =>
                  replace hv'wm : some (Json.num n) = some (.obj wmf) := hv'wm
                  injection hv'wm with hv'wm; cases hv'wm
              | str st =>
                  replace hv'wm : some (Json.str st) = some (.obj wmf) := hv'wm
                  injection hv'wm with hv'wm; cases hv'wm
      | null =>
          have : lookupJ (ensureWM now
              (resolveUserId (listWrapKeys.foldl wrapIfList vals))
              (ensureProfile now (resolveUserId (listWrapKeys.foldl wrapIfList vals))
                (listWrapKeys.foldl wrapIfList vals))) "workout_memory" =
              some Json.null := by
            unfold ensureWM; rw [hwv]; exact hwv
          rw [this] at hwm
          replace hwm : (none : Option WorkoutMemory) = some wm := hwm
          cases hwm
      | bool b =>
          have : lookupJ (ensureWM now
              (resolveUserId (listWrapKeys.foldl wrapIfList vals))
              (ensureProfile now (resolveUserId (listWrapKeys.foldl wrapIfList vals))
                (listWrapKeys.foldl wrapIfList vals))) "workout_memory" =
              some (Json.bool b) := by
            unfold ensureWM; rw [hwv]; exact hwv
          rw [this] at hwm
          replace hwm : (none : Option WorkoutMemory) = some wm := hwm
          cases hwm
      | num n =>
          have : lookupJ (ensureWM now
              (resolveUserId (listWrapKeys.foldl wrapIfList vals))
              (ensureProfile now (resolveUserId (listWrapKeys.foldl wrapIfList vals))
                (listWrapKeys.foldl wrapIfList vals))) "workout_memory" =
              some (Json.num n) := by
            unfold ensureWM; rw [hwv]; exact hwv
          rw [this] at hwm
          replace hwm : (none : Option WorkoutMemory) = some wm := hwm
          cases hwm
      | str st =>
          have : lookupJ (ensureWM now
              (resolveUserId (listWrapKeys.foldl wrapIfList vals))
              (ensureProfile now (resolveUserId (listWrapKeys.foldl wrapIfList vals))
                (listWrapKeys.foldl wrapIfList vals))) "workout_memory" =
              some (Json.str st) := by
            unfold ensureWM; rw [hwv]; exact hwv
          rw [this] at hwm
          replace hwm : (none : Option WorkoutMemory) = some wm := hwm
          cases hwm
      | arr l =>
          have : lookupJ (ensureWM now
              (resolveUserId (listWrapKeys.foldl wrapIfList vals))
              (ensureProfile now (resolveUserId (listWrapKeys.foldl wrapIfList vals))
                (listWrapKeys.foldl wrapIfList vals))) "workout_memory" =
              some (Json.arr l) := by
            unfold ensureWM; rw [hwv]; exact hwv
          rw [this] at hwm
          replace hwm : (none : Option WorkoutMemory) = some wm := hwm
          cases hwm


theorem load_establishes_inv (now : Int) (uid : String)
    (dir : Option (List (String × FileContent))) (m : Mem)
    (h : from_user_dir now uid dir = some m) :
    ∀ w ∈ m.workout_memory.recent_workouts, WorkoutInv w := by
  have hbase : ∀ m', validateOverallMemory now [("_passed_user_id", .str uid)] =
      some m' → ∀ w ∈ m'.workout_memory.recent_workouts, WorkoutInv w := by
    intro m' hv
    apply validate_wm_inv now _ m' hv
    intro j hj
    replace hj : (none : Option Json) = some j := hj
    cases hj
  cases dir with
  | none => exact hbase m h
  | some files =>
      cases hemp : files.isEmpty with
      | true =>
          have hred : from_user_dir now uid (some files) =
              validateOverallMemory now [("_passed_user_id", .str uid)] := by
            show (if files.isEmpty = true then
                    validateOverallMemory now [("_passed_user_id", .str uid)]
                  else
                    match validateOverallMemory now
                        (setJ (collectComponents files) "_passed_user_id"
                          (.str uid)) with
                    | some m => some m
                    | none => validateOverallMemory now
                        [("_passed_user_id", .str uid)]) = _
            rw [hemp]
            rfl
          rw [hred] at h
          exact hbase m h
      | false =>
          rw [from_user_dir_nonempty now uid files hemp] at h
          cases hv : validateOverallMemory now
              (setJ (collectComponents files) "_passed_user_id" (.str uid)) with
          | none =>
              rw [hv] at h
              replace h : validateOverallMemory now
                  [("_passed_user_id", .str uid)] = some m := h
              exact hbase m h
          | some m' =>
              rw [hv] at h
              replace h : some m' = some m := h
              injection h with h
              subst h
              apply validate_wm_inv now _ m' hv
              intro j hj
              rw [lookupJ_setJ, if_neg (by decide)] at hj
              exact collect_wm_migrated files j hj

theorem ensureProfile_obj_or_fail (now : Int) (s : String) (v : JFields) :
    (∃ pf, lookupJ (ensureProfile now (some s) v) "user_profile" =
        some (.obj pf)) ∨
    validateUserProfileField
        (lookupJ (ensureProfile now (some s) v) "user_profile") = none := by
  unfold ensureProfile
  cases hl : lookupJ v "user_profile" with
  | none =>
      refine Or.inl ⟨[("user_id", .str s), ("created_at", .num now),
        ("updated_at", .num now)], ?_⟩
      show lookupJ (setJ v "user_profile" (.obj [("user_id", .str s),
        ("created_at", .num now), ("updated_at", .num now)])) "user_profile" = _
      rw [lookupJ_setJ, if_pos rfl]
  | some jv =>
      cases jv with
      | obj pf =>
          by_cases he : pf.isEmpty = true
          · refine Or.inl ⟨pf, ?_⟩
            show lookupJ (if pf.isEmpty = true then
                  setJ v "user_profile" (.obj pf)
                else setJ v "user_profile" (.obj (profAdjust now (some s) pf)))
              "user_profile" = some (.obj pf)
            rw [if_pos he, lookupJ_setJ, if_pos rfl]
          · refine Or.inl ⟨profAdjust now (some s) pf, ?_⟩
            show lookupJ (if pf.isEmpty = true then
                  setJ v "user_profile" (.obj pf)
                else setJ v "user_profile" (.obj (profAdjust now (some s) pf)))
              "user_profile" = some (.obj (profAdjust now (some s) pf))
            rw [if_neg he, lookupJ_setJ, if_pos rfl]
      | null =>
          refine Or.inl ⟨[("user_id", .str s), ("created_at", .num now),
            ("updated_at", .num now)], ?_⟩
          show lookupJ (setJ v "user_profile" (.obj [("user_id", .str s),
            ("created_at", .num now), ("updated_at", .num now)])) "user_profile" = _
          rw [lookupJ_setJ, if_pos rfl]
      | bool b =>
          right
          show validateUserProfileField
            (lookupJ (setJ v "user_profile" (.bool b)) "user_profile") = none
          rw [lookupJ_setJ, if_pos rfl]
          rfl
      | num n =>
          right
          show validateUserProfileField
            (lookupJ (setJ v "user_profile" (.num n)) "user_profile") = none
          rw [lookupJ_setJ, if_pos rfl]
          rfl
      | str st =>
          right
          show validateUserProfileField
            (lookupJ (setJ v "user_profile" (.str st)) "user_profile") = none
          rw [lookupJ_setJ, if_pos rfl]
          rfl
      | arr l =>
          right
          show validateUserProfileField
            (lookupJ (setJ v "user_profile" (.arr l)) "user_profile") = none
          rw [lookupJ_setJ, if_pos rfl]
          rfl

theorem validate_props (now : Int) (vals : JFields) (uid : String)
    (hne : uid ≠ "")
    (hpass : lookupJ vals "_passed_user_id" = some (.str uid)) (m : Mem)
    (hv : validateOverallMemory now vals = some m) :
    (∃ p, m.user_profile = some p) ∧
      allObjs m.chat_history.conversations = true := by
  simp only [validateOverallMemory, Option.bind_eq_some, Option.map_eq_some'] at hv
  rcases hv with ⟨ui, hui, up, hup, wm, hwm, act, hact, bio, hbio, wp, hwp, ch, hch, hm⟩
  constructor
  · have hpass1 : lookupJ (listWrapKeys.foldl wrapIfList vals) "_passed_user_id" =
        some (.str uid) := by
      rw [lookupJ_foldl_wrap_not_mem _ _ _ (by decide)]
      exact hpass
    rcases resolve_some _ uid hpass1 hne with ⟨s, hres⟩
    have hed : lookupJ (ensureDefaults now vals) "user_profile" =
        lookupJ (ensureProfile now
          (resolveUserId (listWrapKeys.foldl wrapIfList vals))
          (listWrapKeys.foldl wrapIfList vals)) "user_profile" := by
      simp only [ensureDefaults]
      rw [lookupJ_eraseJ, if_neg (by decide),
        lookupJ_ensureWM_ne _ _ _ _ (by decide)]
    rw [hed, hres] at hup
    rcases ensureProfile_obj_or_fail now s (listWrapKeys.foldl wrapIfList vals)
        with ⟨pf, hpf⟩ | hfail
    · rw [hpf] at hup
      replace hup : (validateUserProfile pf).map some = some up := hup
      rcases Option.map_eq_some'.mp hup with ⟨a, _, ha⟩
      refine ⟨a, ?_⟩
      rw [← hm, ← ha]
    · rw [hfail] at hup
      cases hup
  · have hconv := validateChatField_allObjs _ ch hch
    rw [← hm]
    exact hconv


theorem profAdjust_id (now : Int) (uid : Option String) (pf : JFields)
    (h1 : hasKey pf "user_id" = true) (h2 : hasKey pf "created_at" = true)
    (h3 : hasKey pf "updated_at" = true) : profAdjust now uid pf = pf := by
  cases uid <;> simp [profAdjust, h1, h2, h3]

theorem wmAdjust_id (now : Int) (uid : Option String) (wm : JFields)
    (h1 : hasKey wm "user_id" = true) (h2 : hasKey wm "last_updated" = true) :
    wmAdjust now uid wm = wm := by
  cases uid <;> simp [wmAdjust, h1, h2]

theorem migrateWorkoutList_map (ws : List Workout) :
    migrateWorkoutList (ws.map Workout.dump) =
      some (ws.map fun w => Json.obj (migrateWorkoutFields w.dumpFields)) := by
  induction ws with
  | nil => rfl
  | cons w rest ih =>
      simp only [List.map_cons, migrateWorkoutList, Workout.dump_eq_dumpFields,
        migrateWorkoutElem, ih, Option.some_bind, Option.map_some']

theorem collectComponents_dump (m : Mem) :
    collectComponents m.dump =
      [("user_info", optDump UserInfo.dump m.user_info),
       ("user_profile", optDump UserProfile.dump m.user_profile),
       ("workout_memory", .obj
         [("recent_workouts", .arr (m.workout_memory.recent_workouts.map
             fun w => Json.obj (migrateWorkoutFields w.dumpFields))),
          ("user_id", .str m.workout_memory.user_id),
          ("last_updated", .num m.workout_memory.last_updated)]),
       ("activities", .obj m.activities),
       ("biometrics", .obj m.biometrics),
       ("workout_plan", .obj m.workout_plan),
       ("chat_history", ChatHistory.dump m.chat_history)] := by
  obtain ⟨ui, up, ⟨wu, wlu, ws⟩, act, bio, wp, ch⟩ := m
  simp [Mem.dump, collectComponents, collectStep, collectComponent,
    WorkoutMemory.dump, migrateWorkoutMemory, migrateWorkoutList_map,
    lookupJ, setJ]


theorem ensureDefaults_complete (now : Int) (vals : JFields) (pf wmf : JFields)
    (hwrap : listWrapKeys.foldl wrapIfList vals = vals)
    (hpf : lookupJ vals "user_profile" = some (.obj pf))
    (hpfne : pf.isEmpty = false)
    (hpf1 : hasKey pf "user_id" = true) (hpf2 : hasKey pf "created_at" = true)
    (hpf3 : hasKey pf "updated_at" = true)
    (hwm : lookupJ vals "workout_memory" = some (.obj wmf))
    (hwm1 : hasKey wmf "user_id" = true) (hwm2 : hasKey wmf "last_updated" = true) :
    ensureDefaults now vals = eraseJ vals "_passed_user_id" := by
  simp only [ensureDefaults]
  rw [hwrap]
  have hpd : ∀ u, ensureProfile now u vals = vals := by
    intro u
    simp [ensureProfile, hpf, hpfne, profAdjust_id now u pf hpf1 hpf2 hpf3]
    exact setJ_self vals "user_profile" (.obj pf) hpf
  have hwd : ∀ u, ensureWM now u vals = vals := by
    intro u
    simp [ensureWM, hwm, wmAdjust_id now u wmf hwm1 hwm2]
    exact setJ_self vals "workout_memory" (.obj wmf) hwm
  rw [hpd, hwd]

theorem validateUserInfoField_dump (ui : Option UserInfo) :
    validateUserInfoField (some (optDump UserInfo.dump ui)) = some ui := by
  cases ui with
  | none => rfl
  | some u => rfl

theorem validateUserProfileField_dump (p : UserProfile) :
    validateUserProfileField (some (optDump UserProfile.dump (some p))) =
      some (some p) := by
  obtain ⟨a, b, c, d, e⟩ := p
  cases b <;> cases c <;> rfl

theorem validateChatField_dump (c : ChatHistory)
    (hconv : allObjs c.conversations = true) :
    validateChatField (some (ChatHistory.dump c)) = some c := by
  obtain ⟨cu, conv, cli⟩ := c
  replace hconv : allObjs conv = true := hconv
  cases cu <;> cases cli <;>
    simp [validateChatField, ChatHistory.dump, validateChatHistory, getOptStr,
      getOptNum, lookupJ, optStrJ, optNumJ, hconv]

theorem validateWorkoutListJ_map (ws : List Workout)
    (hinv : ∀ w ∈ ws, WorkoutInv w)
    (hOther : ∀ w ∈ ws, w.workout_type = some "Other" → w.original_type ≠ none) :
    validateWorkoutListJ
        (ws.map fun w => Json.obj (migrateWorkoutFields w.dumpFields)) =
      some ws := by
  induction ws with
  | nil => rfl
  | cons w rest ih =>
      simp only [List.map_cons, validateWorkoutListJ]
      rw [workout_roundtrip w (hinv w (List.mem_cons_self w rest))
        (hOther w (List.mem_cons_self w rest))]
      rw [ih (fun x hx => hinv x (List.mem_cons_of_mem w hx))
        (fun x hx => hOther x (List.mem_cons_of_mem w hx))]
      rfl

theorem validateWM_migrated (wm0 : WorkoutMemory)
    (hinv : ∀ w ∈ wm0.recent_workouts, WorkoutInv w)
    (hOther : ∀ w ∈ wm0.recent_workouts,
        w.workout_type = some "Other" → w.original_type ≠ none) :
    validateWorkoutMemory
      [("recent_workouts", .arr (wm0.recent_workouts.map
          fun w => Json.obj (migrateWorkoutFields w.dumpFields))),
       ("user_id", .str wm0.user_id),
       ("last_updated", .num wm0.last_updated)] = some wm0 := by
  obtain ⟨u, lu, ws⟩ := wm0
  replace hinv : ∀ w ∈ ws, WorkoutInv w := hinv
  replace hOther : ∀ w ∈ ws,
      w.workout_type = some "Other" → w.original_type ≠ none := hOther
  simp [validateWorkoutMemory, getReqStr, getReqNum, lookupJ, validateRecentList,
    validateWorkoutListJ_map ws hinv hOther]


theorem validateOverall_dumpD (now : Int) (uid : String) (ui : Option UserInfo)
    (p : UserProfile) (wm0 : WorkoutMemory) (act bio wp : JFields)
    (ch : ChatHistory)
    (hinv : ∀ w ∈ wm0.recent_workouts, WorkoutInv w)
    (hOther : ∀ w ∈ wm0.recent_workouts,
        w.workout_type = some "Other" → w.original_type ≠ none)
    (hconv : allObjs ch.conversations = true) :
    validateOverallMemory now (setJ
      [("user_info", optDump UserInfo.dump ui),
       ("user_profile", optDump UserProfile.dump (some p)),
       ("workout_memory", .obj
         [("recent_workouts", .arr (wm0.recent_workouts.map
             fun w => Json.obj (migrateWorkoutFields w.dumpFields))),
          ("user_id", .str wm0.user_id),
          ("last_updated", .num wm0.last_updated)]),
       ("activities", .obj act),
       ("biometrics", .obj bio),
       ("workout_plan", .obj wp),
       ("chat_history", ChatHistory.dump ch)] "_passed_user_id" (.str uid))
      = some ⟨ui, some p, wm0, act, bio, wp, ch⟩ := by
  simp only [validateOverallMemory]
  rw [ensureDefaults_complete now (setJ
      [("user_info", optDump UserInfo.dump ui),
       ("user_profile", optDump UserProfile.dump (some p)),
       ("workout_memory", .obj
         [("recent_workouts", .arr (wm0.recent_workouts.map
             fun w => Json.obj (migrateWorkoutFields w.dumpFields))),
          ("user_id", .str wm0.user_id),
          ("last_updated", .num wm0.last_updated)]),
       ("activities", .obj act),
       ("biometrics", .obj bio),
       ("workout_plan", .obj wp),
       ("chat_history", ChatHistory.dump ch)] "_passed_user_id" (.str uid)) _ _
    rfl rfl rfl rfl rfl rfl rfl rfl rfl]
  simp [eraseJ, setJ, lookupJ, validateWMField, validateRaw,
    validateUserInfoField_dump, validateUserProfileField_dump,
    validateChatField_dump ch hconv, validateWM_migrated wm0 hinv hOther]

theorem validate_dump (now : Int) (uid : String) (m : Mem) (p : UserProfile)
    (hup : m.user_profile = some p)
    (hinv : ∀ w ∈ m.workout_memory.recent_workouts, WorkoutInv w)
    (hOther : ∀ w ∈ m.workout_memory.recent_workouts,
        w.workout_type = some "Other" → w.original_type ≠ none)
    (hconv : allObjs m.chat_history.conversations = true) :
    validateOverallMemory now
      (setJ (collectComponents m.dump) "_passed_user_id" (.str uid)) = some m := by
  rw [collectComponents_dump m]
  obtain ⟨ui, up, wm0, act, bio, wp, ch⟩ := m
  replace hup : up = some p := hup
  subst hup
  exact validateOverall_dumpD now uid ui p wm0 act bio wp ch hinv hOther hconv


theorem load_props (now : Int) (uid : String) (hne : uid ≠ "")
    (dir : Option (List (String × FileContent))) (m : Mem)
    (h : from_user_dir now uid dir = some m) :
    (∃ p, m.user_profile = some p) ∧
      allObjs m.chat_history.conversations = true := by
  have hbase : ∀ m', validateOverallMemory now [("_passed_user_id", .str uid)] =
      some m' → (∃ p, m'.user_profile = some p) ∧
        allObjs m'.chat_history.conversations = true := by
    intro m' hv
    exact validate_props now [("_passed_user_id", .str uid)] uid hne rfl m' hv
  cases dir with
  | none => exact hbase m h
  | some files =>
      cases hemp : files.isEmpty with
      | true =>
          have hred : from_user_dir now uid (some files) =
              validateOverallMemory now [("_passed_user_id", .str uid)] := by
            show (if files.isEmpty = true then
                    validateOverallMemory now [("_passed_user_id", .str uid)]
                  else
                    match validateOverallMemory now
                        (setJ (collectComponents files) "_passed_user_id"
                          (.str uid)) with
                    | some m => some m
                    | none => validateOverallMemory now
                        [("_passed_user_id", .str uid)]) = _
            rw [hemp]
            rfl
          rw [hred] at h
          exact hbase m h
      | false =>
          rw [from_user_dir_nonempty now uid files hemp] at h
          cases hv : validateOverallMemory now
              (setJ (collectComponents files) "_passed_user_id" (.str uid)) with
          | none =>
              rw [hv] at h
              replace h : validateOverallMemory now
                  [("_passed_user_id", .str uid)] = some m := h
              exact hbase m h
          | some m' =>
              rw [hv] at h
              replace h : some m' = some m := h
              injection h with h
              subst h
              exact validate_props now _ uid hne
                (by rw [lookupJ_setJ, if_pos rfl]) m' hv

/-- C8: save-then-load is a fixed point on loaded aggregates — but only
under an amended hypothesis.  For any aggregate `m` successfully loaded
for a non-empty user id, saving it (`Mem.dump`) and loading the saved
files again reproduces `m` exactly, PROVIDED no stored workout has
`workout_type = "Other"` with an unset `original_type`.  The original
claim (round trip for every schema-valid, non-template aggregate) is
false: such a workout is schema-valid, yet the reload back-fills its
`original_type` to `"Other"`, so the reloaded aggregate differs (see the
counterexample). -/
theorem load_save_load (now₁ now₂ : Int) (uid : String) (hne : uid ≠ "")
    (dir : Option (List (String × FileContent))) (m : Mem)
    (h : from_user_dir now₁ uid dir = some m)
    (hOther : ∀ w ∈ m.workout_memory.recent_workouts,
        w.workout_type = some "Other" → w.original_type ≠ none) :
    from_user_dir now₂ uid (some m.dump) = some m := by
  have hinv := load_establishes_inv now₁ uid dir m h
  rcases load_props now₁ uid hne dir m h with ⟨⟨p, hp⟩, hconv⟩
  have hval := validate_dump now₂ uid m p hp hinv hOther hconv
  have hemp : (Mem.dump m).isEmpty = false := rfl
  rw [from_user_dir_nonempty now₂ uid _ hemp, hval]

/-- Witness for `load_save_load`: loading a fresh (componentless) user
directory yields the default aggregate, and saving and reloading it
reproduces that aggregate exactly. -/
theorem load_save_load_witness :
    ("u1" : String) ≠ "" ∧
    from_user_dir 0 "u1" none = some (defaultMem 0 "u1") ∧
    (∀ w ∈ (defaultMem 0 "u1").workout_memory.recent_workouts,
      w.workout_type = some "Other" → w.original_type ≠ none) ∧
    from_user_dir 7 "u1" (some (Mem.dump (defaultMem 0 "u1"))) =
      some (defaultMem 0 "u1") := by
  have h1 : from_user_dir 0 "u1" none = some (defaultMem 0 "u1") :=
    validate_passed 0 "u1" (by decide)
  have h2 : ∀ w ∈ (defaultMem 0 "u1").workout_memory.recent_workouts,
      w.workout_type = some "Other" → w.original_type ≠ none := by
    intro w hw
    cases hw
  exact ⟨by decide, h1, h2,
    load_save_load 0 7 "u1" (by decide) none (defaultMem 0 "u1") h1 h2⟩

/-- C8 counterexample to the original round-trip claim: a stored
workout `\x7b\x7d` (schema-valid, not a template) loads as
`workout_type = "Other"`, `original_type = None`; saving dumps the
`None` as `null`, and the reload's pydantic validator back-fills
`original_type = "Other"` — the reloaded aggregate differs from the
pre-save one. -/
theorem load_save_load_cex :
    ((from_user_dir 0 "u1" (some [("workout_memory", .content (.obj
        [("user_id", .str "u1"), ("last_updated", .num 0),
         ("recent_workouts", .arr [.obj []])]))])).map
        fun m => m.workout_memory.recent_workouts) =
      some [⟨some "Other", none, none, none, none⟩] ∧
    (((from_user_dir 0 "u1" (some [("workout_memory", .content (.obj
        [("user_id", .str "u1"), ("last_updated", .num 0),
         ("recent_workouts", .arr [.obj []])]))])).bind
        (fun m => from_user_dir 0 "u1" (some m.dump))).map
        fun m => m.workout_memory.recent_workouts) =
      some [⟨some "Other", some "Other", none, none, none⟩] ∧
    ([(⟨some "Other", none, none, none, none⟩ : Workout)] ≠
      [⟨some "Other", some "Other", none, none, none⟩]) :=
  ⟨rfl, rfl, by decide⟩


/-! ## C6: modified-component identification and selective save -/

/-- one RFC 6902 operation as submitted to `apply_json_patch`
(manager.py): `op.get('path', '')` makes a missing path the empty
string; `from` is used by move/copy. -/
structure Op where
  op : String
  path : String
  value : Option Json
  fromPath : Option String

/-- Python `path.split('/')` (for the one-character separator used
throughout manager.py), implemented on the character list so that it
evaluates. -/
def splitSlashAux : List Char → List Char → List String
  | [], cur => [String.mk cur.reverse]
  | c :: rest, cur =>
      if c = '/' then String.mk cur.reverse :: splitSlashAux rest []
      else splitSlashAux rest (c :: cur)

def splitSlash (p : String) : List String := splitSlashAux p.data []

/-- the component names recognised by the `elif` chain of
`MemoryManager._identify_modified_components` (manager.py lines
167-178). -/
def knownComponents : List String :=
  ["user_profile", "workout_memory", "biometrics", "activities",
   "workout_plan", "chat_history"]

/-- one iteration of `_identify_modified_components` (manager.py lines
160-178): split the path on `/`, require a truthy second part, and admit
it only when the `elif` chain recognises it; the Python `set` is modelled
as a first-occurrence-ordered deduplicated list. -/
def identifyStep (acc : List String) (op : Op) : List String :=
  match splitSlash op.path with
  | _ :: comp :: _ =>
      if comp = "" then acc
      else if comp ∈ knownComponents then
        if comp ∈ acc then acc else acc ++ [comp]
      else acc
  | _ => acc

/-- `MemoryManager._identify_modified_components` (manager.py lines
148-180). -/
def identifyModifiedComponents (patch : List Op) : List String :=
  patch.foldl identifyStep []

/-- the spec-side notion "second path segment" of an op path (the name
between the first and second `/`), used to compare
`identifyModifiedComponents` against the specification. -/
def secondSegment (p : String) : Option String :=
  match splitSlash p with
  | _ :: comp :: _ => if comp = "" then none else some comp
  | _ => none

def UserProfile.dumpFields (p : UserProfile) : JFields :=
  [("name", optStrJ p.name), ("user_id", .str p.user_id),
   ("email", optStrJ p.email), ("created_at", .num p.created_at),
   ("updated_at", .num p.updated_at)]

def WorkoutMemory.dumpFields (wm : WorkoutMemory) : JFields :=
  [("recent_workouts", .arr (wm.recent_workouts.map Workout.dump)),
   ("user_id", .str wm.user_id),
   ("last_updated", .num wm.last_updated)]

def ChatHistory.dumpFields (c : ChatHistory) : JFields :=
  [("conversations", .arr c.conversations),
   ("last_interaction", optNumJ c.last_interaction),
   ("user_id", optStrJ c.user_id)]

/-- the per-component branches of `_save_updated_components` (manager.py
lines 197-225): the dumped data with its freshness stamp
(`updated_at` / `last_updated` / `last_interaction`; `workout_plan` only
when the key already exists), `none` for an unrecognised name (the
`else: continue`).  The non-optional components are pydantic model
instances and hence always truthy. -/
def savedData (m : Mem) (now : Int) : String → Option Json
  | "user_profile" => m.user_profile.map fun p =>
      .obj (setJ (UserProfile.dumpFields p) "updated_at" (.num now))
  | "workout_memory" => some
      (.obj (setJ (WorkoutMemory.dumpFields m.workout_memory)
        "last_updated" (.num now)))
  | "biometrics" => some (.obj m.biometrics)
  | "activities" => some (.obj m.activities)
  | "workout_plan" => some
      (.obj (if hasKey m.workout_plan "updated_at" then
          setJ m.workout_plan "updated_at" (.num now)
        else m.workout_plan))
  | "chat_history" => some
      (.obj (setJ (ChatHistory.dumpFields m.chat_history)
        "last_interaction" (.num now)))
  | _ => none

/-- writing one component file: the store maps a file name to its
content and modification time, both refreshed by a write. -/
def saveStep (m : Mem) (now : Int) (st : JFields) (c : String) : JFields :=
  match savedData m now c with
  | some j => setJ st c (.obj [("data", j), ("mtime", .num now)])
  | none => st

/-- `MemoryManager._save_updated_components` (manager.py lines 182-233):
bail out entirely unless `memory.user_info` exists with a truthy
`user_id`; otherwise write each named component. -/
def saveUpdatedComponents (m : Mem) (now : Int) (names : List String)
    (st : JFields) : JFields :=
  match m.user_info with
  | none => st
  | some ui =>
      if ui.user_id = "" then st else names.foldl (saveStep m now) st

theorem mem_identifyStep (acc : List String) (op : Op) (c : String) :
    c ∈ identifyStep acc op ↔
      c ∈ acc ∨ (c ∈ knownComponents ∧ secondSegment op.path = some c) := by
  unfold identifyStep secondSegment
  cases hs : splitSlash op.path with
  | nil => simp
  | cons h0 t =>
      cases t with
      | nil => simp
      | cons comp rest =>
          by_cases he : comp = ""
          · simp [he]
          · by_cases hk : comp ∈ knownComponents
            · by_cases hc : comp = c
              · subst hc
                by_cases ha : comp ∈ acc <;> simp [he, hk, ha]
              · by_cases ha : comp ∈ acc <;>
                  simp [he, hk, ha, hc, Ne.symm hc]
            · by_cases hc : comp = c
              · subst hc
                simp [he, hk]
              · simp [he, hk, hc, Ne.symm hc]

theorem mem_identify_aux (patch : List Op) (acc : List String) (c : String) :
    c ∈ patch.foldl identifyStep acc ↔
      c ∈ acc ∨ (c ∈ knownComponents ∧
        ∃ op ∈ patch, secondSegment op.path = some c) := by
  induction patch generalizing acc with
  | nil => simp
  | cons op rest ih =>
      rw [List.foldl_cons, ih, mem_identifyStep]
      constructor
      · rintro ((h | ⟨h1, h2⟩) | ⟨h1, op', hop', h2⟩)
        · exact Or.inl h
        · exact Or.inr ⟨h1, op, List.mem_cons_self op rest, h2⟩
        · exact Or.inr ⟨h1, op', List.mem_cons_of_mem op hop', h2⟩
      · rintro (h | ⟨h1, op', hop', h2⟩)
        · exact Or.inl (Or.inl h)
        · rcases List.mem_cons.mp hop' with heq | hmem
          · exact Or.inl (Or.inr ⟨h1, heq ▸ h2⟩)
          · exact Or.inr ⟨h1, op', hmem, h2⟩

theorem lookupJ_saveFold (m : Mem) (now : Int) (names : List String)
    (st : JFields) (c : String) (hc : c ∉ names) :
    lookupJ (names.foldl (saveStep m now) st) c = lookupJ st c := by
  induction names generalizing st with
  | nil => rfl
  | cons n rest ih =>
      have hcr : c ∉ rest := fun h => hc (List.mem_cons_of_mem _ h)
      have hcn : c ≠ n := fun h => hc (h ▸ List.mem_cons_self n rest)
      rw [List.foldl_cons, ih _ hcr]
      unfold saveStep
      cases savedData m now n with
      | none => rfl
      | some j => rw [lookupJ_setJ, if_neg hcn]

/-- C6 counterexample to "exactly the set of second path segments": ops
whose second segment is `user_info` or `medical_history` are silently
dropped by the `elif` whitelist, so the returned set misses them. -/
theorem identify_whitelist_cex :
    identifyModifiedComponents
      [⟨"replace", "/user_info/user_id", some (.str "x"), none⟩] = [] ∧
    identifyModifiedComponents
      [⟨"add", "/medical_history/conditions/-", some (.obj []), none⟩] = [] ∧
    secondSegment "/user_info/user_id" = some "user_info" :=
  ⟨rfl, rfl, rfl⟩

/-- C6 amended: `identifyModifiedComponents` returns the second path
segments that lie in the six-name whitelist (NOT every second segment:
`user_info`, `medical_history` and other unknown names are dropped); on
the two workout/biometrics append ops it returns exactly
`\x7b"workout_memory","biometrics"\x7d`; and `saveUpdatedComponents`
leaves every component file not in the given name list — data and
modification time alike — untouched, while (guard passed) writing the
named ones with fresh timestamps. -/
theorem identify_and_save_selective (patch : List Op) (c : String) (m : Mem)
    (now : Int) (names : List String) (st : JFields)
    (v1 v2 : Json) (ui : UserInfo) :
    (c ∈ identifyModifiedComponents patch ↔
      c ∈ knownComponents ∧ ∃ op ∈ patch, secondSegment op.path = some c) ∧
    (identifyModifiedComponents
      [⟨"add", "/workout_memory/recent_workouts/-", some v1, none⟩,
       ⟨"add", "/biometrics/body_composition/weight_readings/-", some v2, none⟩]
      = ["workout_memory", "biometrics"]) ∧
    (c ∉ names →
      lookupJ (saveUpdatedComponents m now names st) c = lookupJ st c) ∧
    (m.user_info = some ui → ui.user_id ≠ "" →
      saveUpdatedComponents m now ["workout_memory", "biometrics"] st =
        setJ (setJ st "workout_memory"
          (.obj [("data", .obj (setJ (WorkoutMemory.dumpFields m.workout_memory)
              "last_updated" (.num now))), ("mtime", .num now)]))
          "biometrics"
          (.obj [("data", .obj m.biometrics), ("mtime", .num now)])) := by
  refine ⟨?_, rfl, ?_, ?_⟩
  · rw [identifyModifiedComponents, mem_identify_aux]
    simp
  · intro hc
    unfold saveUpdatedComponents
    cases m.user_info with
    | none => rfl
    | some u =>
        show lookupJ (if u.user_id = "" then st
          else List.foldl (saveStep m now) st names) c = lookupJ st c
        by_cases hz : u.user_id = ""
        · rw [if_pos hz]
        · rw [if_neg hz]
          exact lookupJ_saveFold m now names st c hc
  · intro hui hid
    simp only [saveUpdatedComponents, hui]
    rw [if_neg hid]
    rfl

/-- Witness for `identify_and_save_selective`: a concrete aggregate,
store and op list exercising every hypothesis. -/
theorem identify_and_save_selective_witness :
    ("chat_history" ∉ (["workout_memory", "biometrics"] : List String)) ∧
    ("chat_history" ∈ identifyModifiedComponents
        [⟨"add", "/chat_history/conversations/-", some .null, none⟩] ↔
      "chat_history" ∈ knownComponents ∧
        ∃ op ∈ [(⟨"add", "/chat_history/conversations/-", some .null,
            none⟩ : Op)],
          secondSegment op.path = some "chat_history") ∧
    lookupJ (saveUpdatedComponents
        ⟨some ⟨"u1", 0, 0⟩, none, ⟨"u1", 0, []⟩, [], [], [],
          ⟨none, [], none⟩⟩ 5 ["workout_memory", "biometrics"]
        [("chat_history", .num 3)]) "chat_history" =
      lookupJ [("chat_history", .num 3)] "chat_history" ∧
    saveUpdatedComponents
        ⟨some ⟨"u1", 0, 0⟩, none, ⟨"u1", 0, []⟩, [], [], [],
          ⟨none, [], none⟩⟩ 5 ["workout_memory", "biometrics"]
        [("chat_history", .num 3)] =
      setJ (setJ [("chat_history", .num 3)] "workout_memory"
        (.obj [("data", .obj (setJ (WorkoutMemory.dumpFields ⟨"u1", 0, []⟩)
            "last_updated" (.num 5))), ("mtime", .num 5)]))
        "biometrics" (.obj [("data", .obj []), ("mtime", .num 5)]) := by
  have h := identify_and_save_selective
    [⟨"add", "/chat_history/conversations/-", some .null, none⟩]
    "chat_history"
    ⟨some ⟨"u1", 0, 0⟩, none, ⟨"u1", 0, []⟩, [], [], [], ⟨none, [], none⟩⟩
    5 ["workout_memory", "biometrics"] [("chat_history", .num 3)]
    .null .null ⟨"u1", 0, 0⟩
  exact ⟨by decide, h.1, h.2.2.1 (by decide), h.2.2.2 rfl (by decide)⟩


/-! ## C2 and C10: the JSON-Patch engine of `apply_json_patch` -/

/-- Modelled from the spec: RFC 6901 token unescaping (`~1` → `/`,
`~0` → `~`), single left-to-right pass on the character list. -/
def unescapeAux : List Char → List Char
  | [] => []
  | '~' :: '1' :: rest => '/' :: unescapeAux rest
  | '~' :: '0' :: rest => '~' :: unescapeAux rest
  | c :: rest => c :: unescapeAux rest

def unescapeToken (s : String) : String := String.mk (unescapeAux s.data)

/-- Modelled from the spec: RFC 6901 JSON-Pointer parsing — the empty
pointer addresses the whole document; otherwise the pointer must start
with `/` and its reference tokens are the unescaped `/`-separated
segments. -/
def parsePointer (p : String) : Option (List String) :=
  if p = "" then some []
  else match splitSlash p with
    | "" :: toks => some (toks.map unescapeToken)
    | _ => none

/-- a reference token as an array index (digits only; like Python
`int(...)`, leading zeros are tolerated). -/
def tokIndexAux : List Char → Nat → Option Nat
  | [], acc => some acc
  | c :: rest, acc =>
      if '0' ≤ c ∧ c ≤ '9' then
        tokIndexAux rest (acc * 10 + (c.toNat - '0'.toNat))
      else none

def tokIndex (s : String) : Option Nat :=
  match s.data with
  | [] => none
  | l => tokIndexAux l 0

/-- Modelled from the spec: JSON-Pointer evaluation (RFC 6901 §4) over a
document. -/
def getAt (doc : Json) : List String → Option Json
  | [] => some doc
  | t :: rest =>
      match doc with
      | .obj f => (lookupJ f t).bind fun v => getAt v rest
      | .arr l =>
          match tokIndex t with
          | some i => (l.get? i).bind fun v => getAt v rest
          | none => none
      | _ => none

/-- Modelled from the spec: RFC 6902 §4.1 `add` — member add-or-replace
on objects, insertion (or `-` append) on arrays, whole-document replace
for the empty pointer; every intermediate reference must exist. -/
def addAt (doc : Json) (v : Json) : List String → Option Json
  | [] => some v
  | [t] =>
      match doc with
      | .obj f => some (.obj (setJ f t v))
      | .arr l =>
          if t = "-" then some (.arr (l ++ [v]))
          else match tokIndex t with
            | some i => if i ≤ l.length then
                  some (.arr (l.take i ++ v :: l.drop i))
                else none
            | none => none
      | _ => none
  | t :: rest =>
      match doc with
      | .obj f => (lookupJ f t).bind fun c =>
          (addAt c v rest).map fun c' => .obj (setJ f t c')
      | .arr l =>
          match tokIndex t with
          | some i => (l.get? i).bind fun c =>
              (addAt c v rest).map fun c' => .arr (l.set i c')
          | none => none
      | _ => none

/-- Modelled from the spec: RFC 6902 §4.2 `remove` — the target location
MUST exist; removing the whole document is not expressible. -/
def removeAt (doc : Json) : List String → Option Json
  | [] => none
  | [t] =>
      match doc with
      | .obj f => if hasKey f t then some (.obj (eraseJ f t)) else none
      | .arr l =>
          match tokIndex t with
          | some i => if i < l.length then
                some (.arr (l.take i ++ l.drop (i + 1)))
              else none
          | none => none
      | _ => none
  | t :: rest =>
      match doc with
      | .obj f => (lookupJ f t).bind fun c =>
          (removeAt c rest).map fun c' => .obj (setJ f t c')
      | .arr l =>
          match tokIndex t with
          | some i => (l.get? i).bind fun c =>
              (removeAt c rest).map fun c' => .arr (l.set i c')
          | none => none
      | _ => none

/-- Modelled from the spec: RFC 6902 §4.3 `replace` — the target location
MUST exist. -/
def replaceAt (doc : Json) (v : Json) : List String → Option Json
  | [] => some v
  | [t] =>
      match doc with
      | .obj f => if hasKey f t then some (.obj (setJ f t v)) else none
      | .arr l =>
          match tokIndex t with
          | some i => if i < l.length then some (.arr (l.set i v)) else none
          | none => none
      | _ => none
  | t :: rest =>
      match doc with
      | .obj f => (lookupJ f t).bind fun c =>
          (replaceAt c v rest).map fun c' => .obj (setJ f t c')
      | .arr l =>
          match tokIndex t with
          | some i => (l.get? i).bind fun c =>
              (replaceAt c v rest).map fun c' => .arr (l.set i c')
          | none => none
      | _ => none

/-- structural JSON equality as used by the `test` op (order-sensitive
on object members, as Python dict comparison of parsed JSON with
identical construction order effectively is for this engine's inputs). -/
def Json.beq : Json → Json → Bool
  | .null, .null => true
  | .bool a, .bool b => a == b
  | .num a, .num b => a == b
  | .str a, .str b => a == b
  | .arr [], .arr [] => true
  | .arr (a :: as), .arr (b :: bs) => Json.beq a b && Json.beq (.arr as) (.arr bs)
  | .obj [], .obj [] => true
  | .obj ((k, a) :: as), .obj ((l, b) :: bs) =>
      k == l && Json.beq a b && Json.beq (.obj as) (.obj bs)
  | _, _ => false
termination_by j _ => sizeOf j
decreasing_by all_goals (simp_wf; try omega)

/-- Modelled from the spec: RFC 6902 §4 — evaluation of one operation;
`none` is the raised conflict/`InvalidJsonPatch` of the library. -/
def applyOp (doc : Json) (op : Op) : Option Json :=
  match parsePointer op.path with
  | none => none
  | some toks =>
      if op.op = "add" then
        match op.value with
        | some v => addAt doc v toks
        | none => none
      else if op.op = "remove" then removeAt doc toks
      else if op.op = "replace" then
        match op.value with
        | some v => replaceAt doc v toks
        | none => none
      else if op.op = "test" then
        match op.value with
        | some v => (getAt doc toks).bind fun cur =>
            if Json.beq cur v then some doc else none
        | none => none
      else if op.op = "move" then
        match op.fromPath with
        | some fp =>
            (parsePointer fp).bind fun ftoks =>
            (getAt doc ftoks).bind fun v =>
            (removeAt doc ftoks).bind fun doc' =>
            addAt doc' v toks
        | none => none
      else if op.op = "copy" then
        match op.fromPath with
        | some fp =>
            (parsePointer fp).bind fun ftoks =>
            (getAt doc ftoks).bind fun v =>
            addAt doc v toks
        | none => none
      else none

/-- `jsonpatch.JsonPatch(patch).apply(...)`: sequential application, any
failure aborting the whole patch. -/
def applyOps (doc : Json) : List Op → Option Json
  | [] => some doc
  | op :: rest => (applyOp doc op).bind fun doc' => applyOps doc' rest

/-- `memory.model_dump()` (manager.py line 125): the aggregate as one
JSON object. -/
def Mem.dumpJson (m : Mem) : Json :=
  .obj [("user_info", optDump UserInfo.dump m.user_info),
        ("user_profile", optDump UserProfile.dump m.user_profile),
        ("workout_memory", WorkoutMemory.dump m.workout_memory),
        ("activities", .obj m.activities),
        ("biometrics", .obj m.biometrics),
        ("workout_plan", .obj m.workout_plan),
        ("chat_history", ChatHistory.dump m.chat_history)]

/-- `OverallMemory.model_validate` of the patched document: a non-dict
patched result raises, i.e. fails. -/
def validateJson (now : Int) : Json → Option Mem
  | .obj f => validateOverallMemory now f
  | _ => none

/-- `MemoryManager.apply_json_patch` (manager.py lines 98-146), paired
with the component store it writes through
`_save_updated_components`: an empty patch returns `None` immediately;
a patch-application or validation exception returns `None` with the
store untouched; success validates, writes the identified components and
returns the updated aggregate. -/
def apply_json_patch (now : Int) (m : Mem) (patch : List Op)
    (st : JFields) : Option Mem × JFields :=
  if patch.isEmpty then (none, st)
  else
    match (applyOps (Mem.dumpJson m) patch).bind (validateJson now) with
    | none => (none, st)
    | some m' =>
        (some m', saveUpdatedComponents m' now
          (identifyModifiedComponents patch) st)



theorem removeAt_none (toks : List String) (doc : Json)
    (h : getAt doc toks = none) : removeAt doc toks = none := by
  induction toks generalizing doc with
  | nil =>
      replace h : some doc = none := h
      cases h
  | cons t rest ih =>
      cases rest with
      | nil =>
          cases doc with
          | obj f =>
              replace h : (lookupJ f t).bind (fun x => getAt x []) = none := h
              show (if hasKey f t = true then some (Json.obj (eraseJ f t))
                else none) = none
              cases hl : lookupJ f t with
              | some x =>
                  rw [hl] at h
                  replace h : some x = none := h
                  cases h
              | none =>
                  rw [if_neg]
                  simp [hasKey, hl]
          | arr l =>
              replace h : (match tokIndex t with
                | some i => (l.get? i).bind fun x => getAt x []
                | none => none) = none := h
              show (match tokIndex t with
                | some i => if i < l.length then
                      some (Json.arr (l.take i ++ l.drop (i + 1)))
                    else none
                | none => none) = none
              cases hn : tokIndex t with
              | none => rfl
              | some i =>
                  rw [hn] at h
                  replace h : (l.get? i).bind (fun x => getAt x []) = none := h
                  show (if i < l.length then some (Json.arr (l.take i ++ l.drop (i + 1)))
                    else none) = none
                  cases hg : l.get? i with
                  | some x =>
                      rw [hg] at h
                      replace h : some x = none := h
                      cases h
                  | none =>
                      rw [if_neg]
                      intro hlt
                      rw [List.get?_eq_none] at hg
                      omega
          | null => rfl
          | bool b => rfl
          | num n => rfl
          | str s => rfl
      | cons r rs =>
          cases doc with
          | obj f =>
              replace h : (lookupJ f t).bind
                (fun x => getAt x (r :: rs)) = none := h
              show (lookupJ f t).bind (fun c => (removeAt c (r :: rs)).map
                fun c' => Json.obj (setJ f t c')) = none
              cases hl : lookupJ f t with
              | none => rfl
              | some c =>
                  rw [hl] at h
                  replace h : getAt c (r :: rs) = none := h
                  show ((removeAt c (r :: rs)).map fun c' => Json.obj (setJ f t c')) = none
                  rw [ih c h]
                  rfl
          | arr l =>
              replace h : (match tokIndex t with
                | some i => (l.get? i).bind fun x => getAt x (r :: rs)
                | none => none) = none := h
              show (match tokIndex t with
                | some i => (l.get? i).bind fun c =>
                    (removeAt c (r :: rs)).map fun c' => Json.arr (l.set i c')
                | none => none) = none
              cases hn : tokIndex t with
              | none => rfl
              | some i =>
                  rw [hn] at h
                  replace h : (l.get? i).bind
                    (fun x => getAt x (r :: rs)) = none := h
                  show ((l.get? i).bind fun c =>
                    (removeAt c (r :: rs)).map fun c' => Json.arr (l.set i c')) = none
                  cases hg : l.get? i with
                  | none => rfl
                  | some c =>
                      rw [hg] at h
                      replace h : getAt c (r :: rs) = none := h
                      show ((removeAt c (r :: rs)).map
                        fun c' => Json.arr (l.set i c')) = none
                      rw [ih c h]
                      rfl
          | null => rfl
          | bool b => rfl
          | num n => rfl
          | str s => rfl

theorem replaceAt_none (toks : List String) (doc v : Json)
    (h : getAt doc toks = none) : replaceAt doc v toks = none := by
  induction toks generalizing doc with
  | nil =>
      replace h : some doc = none := h
      cases h
  | cons t rest ih =>
      cases rest with
      | nil =>
          cases doc with
          | obj f =>
              replace h : (lookupJ f t).bind (fun x => getAt x []) = none := h
              show (if hasKey f t = true then some (Json.obj (setJ f t v))
                else none) = none
              cases hl : lookupJ f t with
              | some x =>
                  rw [hl] at h
                  replace h : some x = none := h
                  cases h
              | none =>
                  rw [if_neg]
                  simp [hasKey, hl]
          | arr l =>
              replace h : (match tokIndex t with
                | some i => (l.get? i).bind fun x => getAt x []
                | none => none) = none := h
              show (match tokIndex t with
                | some i => if i < l.length then
                      some (Json.arr (l.set i v))
                    else none
                | none => none) = none
              cases hn : tokIndex t with
              | none => rfl
              | some i =>
                  rw [hn] at h
                  replace h : (l.get? i).bind (fun x => getAt x []) = none := h
                  show (if i < l.length then some (Json.arr (l.set i v))
                    else none) = none
                  cases hg : l.get? i with
                  | some x =>
                      rw [hg] at h
                      replace h : some x = none := h
                      cases h
                  | none =>
                      rw [if_neg]
                      intro hlt
                      rw [List.get?_eq_none] at hg
                      omega
          | null => rfl
          | bool b => rfl
          | num n => rfl
          | str s => rfl
      | cons r rs =>
          cases doc with
          | obj f =>
              replace h : (lookupJ f t).bind
                (fun x => getAt x (r :: rs)) = none := h
              show (lookupJ f t).bind (fun c => (replaceAt c v (r :: rs)).map
                fun c' => Json.obj (setJ f t c')) = none
              cases hl : lookupJ f t with
              | none => rfl
              | some c =>
                  rw [hl] at h
                  replace h : getAt c (r :: rs) = none := h
                  show ((replaceAt c v (r :: rs)).map fun c' => Json.obj (setJ f t c')) = none
                  rw [ih c h]
                  rfl
          | arr l =>
              replace h : (match tokIndex t with
                | some i => (l.get? i).bind fun x => getAt x (r :: rs)
                | none => none) = none := h
              show (match tokIndex t with
                | some i => (l.get? i).bind fun c =>
                    (replaceAt c v (r :: rs)).map fun c' => Json.arr (l.set i c')
                | none => none) = none
              cases hn : tokIndex t with
              | none => rfl
              | some i =>
                  rw [hn] at h
                  replace h : (l.get? i).bind
                    (fun x => getAt x (r :: rs)) = none := h
                  show ((l.get? i).bind fun c =>
                    (replaceAt c v (r :: rs)).map fun c' => Json.arr (l.set i c')) = none
                  cases hg : l.get? i with
                  | none => rfl
                  | some c =>
                      rw [hg] at h
                      replace h : getAt c (r :: rs) = none := h
                      show ((replaceAt c v (r :: rs)).map
                        fun c' => Json.arr (l.set i c')) = none
                      rw [ih c h]
                      rfl
          | null => rfl
          | bool b => rfl
          | num n => rfl
          | str s => rfl


/-- C2: failed patches are rejected wholesale.  If applying the op list
to the aggregate's dump raises (path conflict) or the patched document
fails `OverallMemory` validation, `apply_json_patch` returns the failure
value `none` and the component store is byte-for-byte untouched — no
partial commit.  Moreover `remove`, `replace` and `test` at a
non-existent path do fail, as RFC 6902 requires. -/
theorem patch_failure_atomic (now : Int) (m : Mem) (patch : List Op)
    (st : JFields)
    (h : (applyOps (Mem.dumpJson m) patch).bind (validateJson now) = none) :
    apply_json_patch now m patch st = (none, st) ∧
    (∀ doc path toks v ov fp, parsePointer path = some toks →
      getAt doc toks = none →
      applyOp doc ⟨"remove", path, ov, fp⟩ = none ∧
      applyOp doc ⟨"replace", path, some v, fp⟩ = none ∧
      applyOp doc ⟨"test", path, some v, fp⟩ = none) := by
  constructor
  · unfold apply_json_patch
    cases hp : patch.isEmpty with
    | true => rfl
    | false =>
        rw [h]
        rfl
  · intro doc path toks v ov fp hparse hget
    refine ⟨?_, ?_, ?_⟩
    · show (match parsePointer path with
        | none => none
        | some toks => removeAt doc toks) = none
      rw [hparse]
      exact removeAt_none toks doc hget
    · show (match parsePointer path with
        | none => none
        | some toks => replaceAt doc v toks) = none
      rw [hparse]
      exact replaceAt_none toks doc v hget
    · show (match parsePointer path with
        | none => none
        | some toks => (getAt doc toks).bind fun cur =>
            if Json.beq cur v then some doc else none) = none
      rw [hparse]
      show ((getAt doc toks).bind fun cur =>
        if Json.beq cur v then some doc else none) = none
      rw [hget]
      rfl

/-- Witness for `patch_failure_atomic`: a `remove` at the non-existent
`/zzz` on the default aggregate fails and leaves a one-file store
unchanged. -/
theorem patch_failure_atomic_witness :
    (applyOps (Mem.dumpJson (defaultMem 0 "u1"))
        [⟨"remove", "/zzz", none, none⟩]).bind (validateJson 0) = none ∧
    apply_json_patch 0 (defaultMem 0 "u1") [⟨"remove", "/zzz", none, none⟩]
      [("chat_history", .num 3)] = (none, [("chat_history", .num 3)]) ∧
    parsePointer "/zzz" = some ["zzz"] ∧
    getAt (.obj [("a", .num 1)]) ["zzz"] = none ∧
    applyOp (.obj [("a", .num 1)]) ⟨"remove", "/zzz", none, none⟩ = none := by
  have h := patch_failure_atomic 0 (defaultMem 0 "u1")
    [⟨"remove", "/zzz", none, none⟩] [("chat_history", .num 3)] rfl
  exact ⟨rfl, h.1, rfl, rfl,
    (h.2 (.obj [("a", .num 1)]) "/zzz" ["zzz"] (.num 0) none none rfl rfl).1⟩

/-- C10: `apply_json_patch` called with an empty op list returns the
failure value `(none, unchanged store)` — exactly what a genuinely
failed patch (here a `remove` at a non-existent component) returns, so
the caller cannot tell "nothing to apply" from "patch rejected" by the
return value. -/
theorem empty_patch_indistinguishable (now : Int) (m : Mem) (st : JFields) :
    apply_json_patch now m [] st = (none, st) ∧
    apply_json_patch now m
      [⟨"remove", "/nonexistent_component", none, none⟩] st = (none, st) :=
  ⟨rfl, rfl⟩


/-! ## C7: body-fat display conversion -/

/-- the per-reading body-fat display of the individual last-30-days
listing (`BodyComposition.get_llm_view`, schemas.py lines 536-541): a
value below `1.0` is multiplied by 100, others shown unchanged. -/
def displayBF (v : ℚ) : ℚ := if v < 1 then v * 100 else v

/-- the body-fat conversion of the per-period statistical summaries
(`BodyComposition._summarize_biometric_period`, schemas.py lines
471-474): `need_conversion = all(v < 1.0 for v in values)` — the whole
collection is rescaled only when EVERY value is below `1.0`. -/
def bfConvert (values : List ℚ) : List ℚ :=
  if values.all (fun v => decide (v < 1)) then values.map (fun v => v * 100)
  else values

/-- C7 counterexample to the "fixed 1.0 threshold applied consistently"
claim: in a summary period holding both `0.182` and `18.2`, the
all-fractions test fails and `0.182` is displayed UNCONVERTED (as 0.2%),
although the individual listing would display the very same reading as
18.2%. -/
theorem bodyfat_threshold_cex :
    bfConvert [182/1000, 91/5] = [182/1000, 91/5] ∧
    displayBF (182/1000) = 91/5 ∧
    ((182 : ℚ)/1000) ≠ 91/5 := by
  refine ⟨?_, ?_, by norm_num⟩
  · unfold bfConvert
    rw [if_neg]
    simp only [List.all_eq_true, decide_eq_true_eq]
    intro hcontra
    have h2 := hcontra (91/5) (by simp)
    norm_num at h2
  · unfold displayBF
    rw [if_pos (by norm_num)]
    norm_num

/-- C7 amended: the individual last-30-days listing applies the 1.0
threshold per reading (`0.182` renders 18.2, `18.2` renders 18.2), but
the period summaries apply it to the whole collection: values are
rescaled ×100 only when ALL of them are below 1.0, and a single value
≥ 1.0 leaves every value — fractions included — unconverted, so the
threshold is NOT applied consistently between the two paths (see the
counterexample). -/
theorem bodyfat_threshold (v : ℚ) (values : List ℚ) :
    (v < 1 → displayBF v = v * 100) ∧
    (1 ≤ v → displayBF v = v) ∧
    displayBF (182/1000) = 91/5 ∧
    displayBF (91/5) = 91/5 ∧
    ((∀ x ∈ values, x < 1) →
      bfConvert values = values.map (fun x => x * 100)) ∧
    ((∃ x ∈ values, 1 ≤ x) → bfConvert values = values) := by
  refine ⟨?_, ?_, ?_, ?_, ?_, ?_⟩
  · intro h
    unfold displayBF
    rw [if_pos h]
  · intro h
    unfold displayBF
    rw [if_neg (not_lt.mpr h)]
  · unfold displayBF
    rw [if_pos (by norm_num)]
    norm_num
  · unfold displayBF
    rw [if_neg (by norm_num)]
  · intro h
    have hall : values.all (fun x => decide (x < 1)) = true := by
      simp only [List.all_eq_true, decide_eq_true_eq]
      exact h
    unfold bfConvert
    rw [if_pos hall]
  · rintro ⟨x, hx, hxge⟩
    have hall : ¬ (values.all (fun y => decide (y < 1)) = true) := by
      simp only [List.all_eq_true, decide_eq_true_eq]
      intro hcontra
      exact absurd (hcontra x hx) (not_lt.mpr hxge)
    unfold bfConvert
    rw [if_neg hall]

/-- Witness for `bodyfat_threshold`: concrete fraction and percentage
values exercising every hypothesis. -/
theorem bodyfat_threshold_witness :
    ((1 : ℚ)/2 < 1 ∧ displayBF (1/2) = (1/2) * 100) ∧
    ((1 : ℚ) ≤ 2 ∧ displayBF 2 = 2) ∧
    ((∀ x ∈ [(1 : ℚ)/2, 1/4], x < 1) ∧
      bfConvert [(1 : ℚ)/2, 1/4] = [(1 : ℚ)/2 * 100, (1/4 : ℚ) * 100]) ∧
    ((∃ x ∈ [(1 : ℚ)/2, 2], (1 : ℚ) ≤ x) ∧
      bfConvert [(1 : ℚ)/2, 2] = [(1 : ℚ)/2, 2]) := by
  have hfrac : ∀ x ∈ [(1 : ℚ)/2, 1/4], x < 1 := by
    intro x hx
    rcases List.mem_cons.mp hx with h | h
    · rw [h]; norm_num
    · rcases List.mem_cons.mp h with h2 | h2
      · rw [h2]; norm_num
      · cases h2
  have hbig : ∃ x ∈ [(1 : ℚ)/2, 2], (1 : ℚ) ≤ x :=
    ⟨2, by simp, by norm_num⟩
  refine ⟨⟨by norm_num, (bodyfat_threshold (1/2) []).1 (by norm_num)⟩,
    ⟨by norm_num, (bodyfat_threshold 2 []).2.1 (by norm_num)⟩,
    ⟨hfrac, ?_⟩, ⟨hbig, (bodyfat_threshold 0 [(1 : ℚ)/2, 2]).2.2.2.2.2 hbig⟩⟩
  rw [(bodyfat_threshold 0 [(1 : ℚ)/2, 1/4]).2.2.2.2.1 hfrac]
  rfl

end Zestify
